import Mathlib

/-!
Verification of the PitWall strategy-simulation core: the lap/stint time
model, the dry-strategy optimizer, the wet-strategy templates
(`src/backend/routers/simulate.py`), the historical pattern analyzer
(`src/backend/utils/historical_analysis.py`), the historical alignment
scorer (`src/backend/utils/historical_scoring.py` and
`historical_weights.py`) and the temperature adjuster
(`src/backend/utils/fastf1_helpers.py`).

Python floats are modelled as exact rationals (reals for the one function
that uses a non-integer power); Python's `round(x, d)` is modelled as exact
half-to-even rounding at `d` decimal digits.
-/

namespace PitWall

/-! ### Rounding: model of Python's banker's rounding `round(x, d)` -/

/-- Round to the nearest integer, halves to the even integer
(Python's rounding mode). -/
def roundHE {α : Type} [LinearOrderedField α] [FloorRing α] (x : α) : ℤ :=
  if x - ⌊x⌋ < 1/2 then ⌊x⌋
  else if (1 : α)/2 < x - ⌊x⌋ then ⌊x⌋ + 1
  else if Even ⌊x⌋ then ⌊x⌋ else ⌊x⌋ + 1

/-- Model of Python's `round(x, d)`. -/
def pyRound {α : Type} [LinearOrderedField α] [FloorRing α] (x : α) (d : ℕ) : α :=
  (roundHE (x * 10 ^ d) : α) / 10 ^ d

/-- `CompoundParams` of `simulate.py`: per-compound degradation parameters. -/
structure CompoundParams where
  avg_deg_s_per_lap : ℚ
  cliff_onset_lap : ℤ
  cliff_rate_s_per_lap2 : ℚ
  typical_max_stint_laps : ℤ
  base_pace_offset : ℚ
deriving DecidableEq

/-- `StintDetail` of `simulate.py` (the computed per-stint record). -/
structure StintDetail where
  stint_number : ℤ
  compound : String
  start_lap : ℤ
  end_lap : ℤ
  laps : ℤ
  stint_time_s : ℚ
  avg_lap_time_s : ℚ
  final_lap_time_s : ℚ
  cliff_laps : ℤ
  is_wet_tyre : Bool
deriving DecidableEq

/-- `StrategyResult` of `simulate.py` (`total_time_display` formatting omitted). -/
structure StrategyResult where
  name : String
  stops : ℤ
  total_time_s : ℚ
  pit_stop_laps : List ℤ
  stints : List StintDetail
  weather_note : String
deriving DecidableEq

/-! ### Lap/stint time model (`_lap_time` / `_stint_time` / `_eval_total`) -/

/-- `_lap_time`: single lap time for lap `n` (0-indexed) in a stint. -/
def lap_time (n : ℤ) (base_lap pace_offset deg_rate : ℚ)
    (cliff_onset : ℤ) (cliff_rate : ℚ) : ℚ :=
  base_lap + pace_offset + n * deg_rate
    + (if n > cliff_onset then cliff_rate * ((n - cliff_onset : ℤ) : ℚ) ^ 2 else 0)

/-- The `(total, avg, final, cliff_laps)` quadruple returned by `_stint_time`. -/
structure StintCalc where
  total : ℚ
  avg : ℚ
  final : ℚ
  cliff_laps : ℤ
deriving DecidableEq

/-- `_stint_time`: closed-form linear region plus explicit per-lap summation of
the cliff region. -/
def stint_time (laps : ℤ) (base_lap pace_offset deg_rate : ℚ)
    (cliff_onset : ℤ) (cliff_rate : ℚ) : StintCalc :=
  if laps ≤ 0 then ⟨0, 0, 0, 0⟩
  else
    let linear_laps : ℤ := min laps (cliff_onset + 1)
    let linear_total : ℚ :=
      (linear_laps : ℚ) * (base_lap + pace_offset)
        + deg_rate * (linear_laps : ℚ) * ((linear_laps : ℚ) - 1) / 2
    let cliff_count : ℤ := if laps > cliff_onset + 1 then laps - (cliff_onset + 1) else 0
    let cliff_total : ℚ :=
      ∑ i ∈ Finset.range cliff_count.toNat,
        ((base_lap + pace_offset) + ((cliff_onset + 1 + i : ℤ) : ℚ) * deg_rate
          + cliff_rate * (((cliff_onset + 1 + i : ℤ) - cliff_onset : ℤ) : ℚ) ^ 2)
    let total := linear_total + cliff_total
    ⟨total, total / (laps : ℚ),
      lap_time (laps - 1) base_lap pace_offset deg_rate cliff_onset cliff_rate,
      cliff_count⟩

/-- `_eval_total`: quick total time evaluation for the optimizer — stint times
of the zipped `(compound, laps)` pairs plus one pit loss between consecutive
stints. -/
def eval_total (stint_laps : List ℤ) (compounds : List String)
    (base_lap pit_loss : ℚ) (all_params : String → CompoundParams) : ℚ :=
  ((compounds.zip stint_laps).enum.foldl
    (fun acc p =>
      let cp := all_params p.2.1
      acc + (stint_time p.2.2 base_lap cp.base_pace_offset cp.avg_deg_s_per_lap
              cp.cliff_onset_lap cp.cliff_rate_s_per_lap2).total
        + (if p.1 < compounds.length - 1 then pit_loss else 0))
    0)

/-! ### The claimed naive lap-time model (spec §4.1) -/

/-- The spec's lap-time formula
`base_lap + pace_offset + n·deg_rate + cliff_rate·max(0, n−cliff_onset)²`. -/
def lap_time_max_form (n : ℤ) (base_lap pace_offset deg_rate : ℚ)
    (cliff_onset : ℤ) (cliff_rate : ℚ) : ℚ :=
  base_lap + pace_offset + n * deg_rate
    + cliff_rate * ((max 0 (n - cliff_onset) : ℤ) : ℚ) ^ 2

/-- The naive stint total: the lap-time model summed lap by lap over
`n = 0 .. laps−1`. -/
def naive_stint_total (laps : ℕ) (base_lap pace_offset deg_rate : ℚ)
    (cliff_onset : ℤ) (cliff_rate : ℚ) : ℚ :=
  ∑ n ∈ Finset.range laps,
    lap_time_max_form (n : ℤ) base_lap pace_offset deg_rate cliff_onset cliff_rate

/-! ### Strategy builder (`_build_strategy`) -/

/-- The loop body of `_build_strategy`, written as structural recursion over the
enumerated `(index, (compound, laps))` pairs. It carries the running
`current_lap` and returns `(stints, pit_stop_laps, total_time)` accumulated in
iteration order; a pit loss is added (and a pit lap recorded) after stint `i`
exactly when `i < stops`. -/
def build_loop (base_lap pit_loss : ℚ) (all_params : String → CompoundParams)
    (stops : ℤ) : List (ℕ × String × ℤ) → ℤ → List StintDetail × List ℤ × ℚ
  | [], _ => ([], [], 0)
  | (i, code, laps) :: rest, current_lap =>
    let cp := all_params code
    let r := stint_time laps base_lap cp.base_pace_offset cp.avg_deg_s_per_lap
      cp.cliff_onset_lap cp.cliff_rate_s_per_lap2
    let detail : StintDetail :=
      { stint_number := (i : ℤ) + 1, compound := code,
        start_lap := current_lap, end_lap := current_lap + laps - 1, laps := laps,
        stint_time_s := pyRound r.total 3, avg_lap_time_s := pyRound r.avg 3,
        final_lap_time_s := pyRound r.final 3, cliff_laps := r.cliff_laps,
        is_wet_tyre := code = "INTERMEDIATE" ∨ code = "WET" }
    let tail := build_loop base_lap pit_loss all_params stops rest (current_lap + laps)
    (detail :: tail.1,
      (if (i : ℤ) < stops then [current_lap + laps - 1] else []) ++ tail.2.1,
      r.total + (if (i : ℤ) < stops then pit_loss else 0) + tail.2.2)

/-- `_build_strategy`: assembles a `StrategyResult` from a compound sequence and
stint lengths (`total_time_display` formatting omitted). -/
def build_strategy (name : String) (compound_seq : List String)
    (stint_laps : List ℤ) (base_lap pit_loss : ℚ)
    (all_params : String → CompoundParams) (weather_note : String := "") :
    StrategyResult :=
  let stops : ℤ := (compound_seq.length : ℤ) - 1
  let acc := build_loop base_lap pit_loss all_params stops
    (compound_seq.zip stint_laps).enum 1
  { name := name, stops := stops,
    total_time_s := pyRound acc.2.2 3,
    pit_stop_laps := acc.2.1, stints := acc.1, weather_note := weather_note }

/-! ### Dry optimizers (`_optimize_1stop` / `_optimize_2stop`) -/

/-- One step of the brute-force minimization loops: keep the earliest strictly
smaller value of `f` among candidates passing `feasible`; `none` models the
initial `best_time = inf`. -/
def search_step {β : Type} (feasible : β → Bool) (f : β → ℚ)
    (best : Option (ℚ × β)) (s : β) : Option (ℚ × β) :=
  if feasible s then
    match best with
    | none => some (f s, s)
    | some (bt, bs) => if f s < bt then some (f s, s) else some (bt, bs)
  else best

/-- The candidate split points of `_optimize_1stop`:
Python's `range(5, total_laps - 4)`. -/
def split_range1 (total_laps : ℤ) : List ℤ :=
  (List.range (total_laps - 9).toNat).map (fun (i : ℕ) => 5 + (i : ℤ))

/-- The stint-cap feasibility filter of `_optimize_1stop`'s loop:
the `continue` fires when `split > max1 or total_laps - split > max2`. -/
def feasible_split1 (total_laps max1 max2 : ℤ) (split : ℤ) : Bool :=
  !(split > max1 || total_laps - split > max2)

/-- The candidate objective of `_optimize_1stop`:
`_eval_total([split, total_laps - split], [c1, c2], ...)`. -/
def eval_split1 (total_laps : ℤ) (c1 c2 : String) (base_lap pit_loss : ℚ)
    (all_params : String → CompoundParams) (split : ℤ) : ℚ :=
  eval_total [split, total_laps - split] [c1, c2] base_lap pit_loss all_params

/-- The split point `_optimize_1stop` selects: the feasible brute-force
minimizer, or `total_laps // 2` when no candidate is feasible. -/
def best_split1 (total_laps : ℤ) (base_lap pit_loss : ℚ) (c1 c2 : String)
    (all_params : String → CompoundParams) : ℤ :=
  match (split_range1 total_laps).foldl
      (search_step
        (feasible_split1 total_laps ((all_params c1).typical_max_stint_laps + 5)
          ((all_params c2).typical_max_stint_laps + 5))
        (eval_split1 total_laps c1 c2 base_lap pit_loss all_params))
      none with
  | some (_, s) => s
  | none => total_laps / 2

/-- `_optimize_1stop`: brute-force the 1-stop split point, with even-split
fallback when no split satisfies the caps. -/
def optimize_1stop (total_laps : ℤ) (base_lap pit_loss : ℚ) (c1 c2 : String)
    (all_params : String → CompoundParams) : StrategyResult :=
  let best_split := best_split1 total_laps base_lap pit_loss c1 c2 all_params
  build_strategy ("1-Stop: " ++ c1 ++ " → " ++ c2) [c1, c2]
    [best_split, total_laps - best_split] base_lap pit_loss all_params

/-- The candidate `(s1, s2)` pairs of `_optimize_2stop`:
`s1` in Python's `range(5, min(total_laps - 9, max1 + 1))`, and `s2` in
`range(5, min(total_laps - s1 - 4, max2 + 1))`. -/
def split_range2 (total_laps max1 max2 : ℤ) : List (ℤ × ℤ) :=
  ((List.range (min (total_laps - 9) (max1 + 1) - 5).toNat).map
      (fun (i : ℕ) => 5 + (i : ℤ))).flatMap
    (fun s1 =>
      ((List.range (min (total_laps - s1 - 4) (max2 + 1) - 5).toNat).map
          (fun (j : ℕ) => 5 + (j : ℤ))).map (fun s2 => (s1, s2)))

/-- `_optimize_2stop`: nested brute-force over `(s1, s2)` with `s3` implied,
with even-thirds fallback when nothing is feasible. -/
def optimize_2stop (total_laps : ℤ) (base_lap pit_loss : ℚ) (c1 c2 c3 : String)
    (all_params : String → CompoundParams) : StrategyResult :=
  let max3 := (all_params c3).typical_max_stint_laps + 5
  let feasible : ℤ × ℤ → Bool := fun p =>
    !(total_laps - p.1 - p.2 < 5 || total_laps - p.1 - p.2 > max3)
  let f : ℤ × ℤ → ℚ := fun p =>
    eval_total [p.1, p.2, total_laps - p.1 - p.2] [c1, c2, c3]
      base_lap pit_loss all_params
  let best : ℤ × ℤ :=
    match (split_range2 total_laps ((all_params c1).typical_max_stint_laps + 5)
        ((all_params c2).typical_max_stint_laps + 5)).foldl
        (search_step feasible f) none with
    | some (_, p) => p
    | none => (total_laps / 3, total_laps / 3)
  build_strategy ("2-Stop: " ++ c1 ++ " → " ++ c2 ++ " → " ++ c3) [c1, c2, c3]
    [best.1, best.2, total_laps - best.1 - best.2] base_lap pit_loss all_params

/-! ### Wet strategy generation (`_generate_wet_strategies`) -/

/-- Python's `int()` truncation toward zero on an exact rational. -/
def pyInt (q : ℚ) : ℤ := q.num / (q.den : ℤ)

/-- `_inter_params`: hardcoded Intermediate compound parameters. -/
def inter_params : CompoundParams :=
  { avg_deg_s_per_lap := 0.02, cliff_onset_lap := 25,
    cliff_rate_s_per_lap2 := 0.005, typical_max_stint_laps := 40,
    base_pace_offset := 2.0 }

/-- `_wet_params`: hardcoded Full Wet compound parameters. -/
def wet_params : CompoundParams :=
  { avg_deg_s_per_lap := 0.01, cliff_onset_lap := 35,
    cliff_rate_s_per_lap2 := 0.003, typical_max_stint_laps := 50,
    base_pace_offset := 5.0 }

/-- `CONDITION_MULTIPLIER`: pace multiplier on the track surface per
weather condition. -/
def CONDITION_MULTIPLIER (condition : String) : ℚ :=
  if condition = "dry" then 1.00
  else if condition = "damp" then 1.06
  else if condition = "wet" then 1.15
  else if condition = "extreme" then 1.35
  else 1

/-- The damp-condition crossover lap:
`max(5, min(int(total_laps * rain_intensity * 0.5), total_laps - 10))`. -/
def damp_crossover (total_laps : ℤ) (rain_intensity : ℚ) : ℤ :=
  max 5 (min (pyInt ((total_laps : ℚ) * rain_intensity * 0.5)) (total_laps - 10))

/-- `_generate_wet_strategies`: condition-specific wet strategy templates. -/
def generate_wet_strategies (condition : String) (rain_intensity : ℚ)
    (total_laps : ℤ) (base_lap pit_loss : ℚ) (slick_codes : List String)
    (all_params : String → CompoundParams) : List StrategyResult :=
  if condition = "damp" then
    let crossover := damp_crossover total_laps rain_intensity
    let note := "Track dries ~lap " ++ toString crossover ++ ". Inters mandatory at start."
    let inter_adjusted : CompoundParams :=
      { avg_deg_s_per_lap := inter_params.avg_deg_s_per_lap,
        cliff_onset_lap := crossover,
        cliff_rate_s_per_lap2 := 0.10,
        typical_max_stint_laps := crossover + 5,
        base_pace_offset := inter_params.base_pace_offset }
    let adjusted_params : String → CompoundParams :=
      fun c => if c = "INTERMEDIATE" then inter_adjusted else all_params c
    let base_damp := base_lap * CONDITION_MULTIPLIER "damp"
    (slick_codes.map (fun sc =>
      build_strategy ("1-Stop: INTER → " ++ sc) ["INTERMEDIATE", sc]
        [crossover, total_laps - crossover] base_damp pit_loss adjusted_params note))
    ++ slick_codes.flatMap (fun sc1 =>
        slick_codes.flatMap (fun sc2 =>
          if sc1 = sc2 then []
          else
            let s2_laps := (total_laps - crossover) / 2
            let s3_laps := total_laps - crossover - s2_laps
            if s2_laps < 5 ∨ s3_laps < 5 then []
            else [build_strategy ("2-Stop: INTER → " ++ sc1 ++ " → " ++ sc2)
              ["INTERMEDIATE", sc1, sc2] [crossover, s2_laps, s3_laps]
              base_damp pit_loss adjusted_params note]))
  else if condition = "wet" then
    let crossover :=
      max 10 (min (pyInt ((total_laps : ℚ) * rain_intensity * 0.7)) (total_laps - 5))
    let base_wet := base_lap * CONDITION_MULTIPLIER "wet"
    let adjusted_params : String → CompoundParams :=
      fun c => if c = "INTERMEDIATE" then inter_params
               else if c = "WET" then wet_params else all_params c
    [build_strategy "0-Stop: INTERMEDIATE" ["INTERMEDIATE"] [total_laps]
      base_wet pit_loss adjusted_params "Full wet race on inters"]
    ++ (if rain_intensity > 0.5 then
          let switch := total_laps / 2
          [build_strategy "1-Stop: WET → INTER" ["WET", "INTERMEDIATE"]
            [switch, total_laps - switch] base_wet pit_loss adjusted_params
            "Start Full Wets, switch to Inters as rain eases"]
        else [])
    ++ (if rain_intensity < 0.6 ∧ crossover < total_laps - 8 then
          (slick_codes.take 2).map (fun sc =>
            build_strategy ("1-Stop: INTER → " ++ sc) ["INTERMEDIATE", sc]
              [crossover, total_laps - crossover] base_wet pit_loss adjusted_params
              ("Late crossover to slicks at ~lap " ++ toString crossover))
        else [])
  else if condition = "extreme" then
    let base_ext := base_lap * CONDITION_MULTIPLIER "extreme"
    let adjusted_params : String → CompoundParams :=
      fun c => if c = "INTERMEDIATE" then inter_params
               else if c = "WET" then wet_params else all_params c
    let switch :=
      min (max (total_laps / 2) (pyInt ((total_laps : ℚ) * rain_intensity * 0.6)))
        (total_laps - 5)
    [build_strategy "0-Stop: WET" ["WET"] [total_laps]
      base_ext pit_loss adjusted_params "Extreme rain — Full Wets only",
     build_strategy "1-Stop: WET → INTER" ["WET", "INTERMEDIATE"]
      [switch, total_laps - switch] base_ext pit_loss adjusted_params
      "Switch to Inters if rain eases"]
  else []

/-! ### Historical pattern analyzer (`historical_analysis.py`) -/

/-- One extracted stint of one driver (the fields `_extract_race_data` stores
that the analyzed statistics read). -/
structure StintRec where
  compound : String
  start_lap : ℤ
  end_lap : ℤ
deriving DecidableEq

/-- One race's `driver_stints`: each driver's ordered stint list, in iteration
order. -/
abbrev RaceStints : Type := List (List StintRec)

/-- `MIN_DRIVERS_FOR_IQR`. -/
def MIN_DRIVERS_FOR_IQR : ℕ := 4

/-- The `first_stop_laps` collection loop of `_compute_first_stop_stats`:
per driver, the first stint's end lap, skipping drivers with fewer than two
stints and end laps `≤ 1`. -/
def race_first_stops (drivers : List (List StintRec)) : List ℤ :=
  drivers.foldr
    (fun stints acc =>
      match stints with
      | s0 :: _ :: _ => if s0.end_lap ≤ 1 then acc else s0.end_lap :: acc
      | _ => acc)
    []

/-- The first-stop laps collected across all races. -/
def first_stop_laps (sessions_data : List RaceStints) : List ℤ :=
  sessions_data.foldr (fun race acc => race_first_stops race ++ acc) []

/-- NumPy's default (linear-interpolation) percentile: position
`q/100·(n−1)` between the order statistics. `np.median` is `percentile 50`. -/
def np_percentile (xs : List ℚ) (q : ℚ) : ℚ :=
  let sorted := List.insertionSort (· ≤ ·) xs
  let n := sorted.length
  if n = 0 then 0
  else
    let pos : ℚ := ((n : ℚ) - 1) * q / 100
    let i : ℕ := (⌊pos⌋).toNat
    let frac : ℚ := pos - (i : ℚ)
    let lo := sorted.getD i 0
    let hi := sorted.getD (i + 1) lo
    lo + frac * (hi - lo)

/-- The `{median, p25, p75, iqr, n}` record of `_compute_first_stop_stats`. -/
structure FirstStopStats where
  median : ℚ
  p25 : ℚ
  p75 : ℚ
  iqr : ℚ
  n : ℕ
deriving DecidableEq

/-- `_compute_first_stop_stats`: `None` plus an appended note when fewer than
`MIN_DRIVERS_FOR_IQR` first-stop points exist, otherwise the rounded
median/p25/p75/iqr statistics. Returns the (result, updated notes) pair. -/
def compute_first_stop_stats (sessions_data : List RaceStints)
    (notes : List String) : Option FirstStopStats × List String :=
  let pts := first_stop_laps sessions_data
  if pts.length < MIN_DRIVERS_FOR_IQR then
    (none, notes ++ ["First stop: only " ++ toString pts.length
      ++ " data points (need " ++ toString MIN_DRIVERS_FOR_IQR ++ "). Insufficient."])
  else
    let arr := pts.map (fun z => (z : ℚ))
    let p25 := np_percentile arr 25
    let median := np_percentile arr 50
    let p75 := np_percentile arr 75
    (some { median := pyRound median 1, p25 := pyRound p25 1,
            p75 := pyRound p75 1, iqr := pyRound (p75 - p25) 1,
            n := pts.length }, notes)

/-- The `{one_stop_pct, two_stop_pct, three_plus_pct, n}` record of
`_compute_stop_count_distribution`. -/
structure StopCountDistribution where
  one_stop_pct : ℚ
  two_stop_pct : ℚ
  three_plus_pct : ℚ
  n : ℕ
deriving DecidableEq

/-- The `stop_counts` collection loop: per driver, `len(stints) - 1` clamped
at zero. -/
def stop_counts (sessions_data : List RaceStints) : List ℕ :=
  sessions_data.foldr (fun race acc => race.map (fun stints => stints.length - 1) ++ acc) []

/-- `_compute_stop_count_distribution`: `None` plus a note when no driver data
exists, otherwise the rounded percentage of drivers with exactly 1, exactly 2
and `≥ 3` stops. -/
def compute_stop_count_distribution (sessions_data : List RaceStints)
    (notes : List String) : Option StopCountDistribution × List String :=
  let counts := stop_counts sessions_data
  if counts.isEmpty then
    (none, notes ++ ["Stop count: no data available."])
  else
    let n := counts.length
    let one := counts.countP (fun s => s = 1)
    let two := counts.countP (fun s => s = 2)
    let three_plus := counts.countP (fun s => s ≥ 3)
    (some { one_stop_pct := pyRound ((one : ℚ) / (n : ℚ) * 100) 1,
            two_stop_pct := pyRound ((two : ℚ) / (n : ℚ) * 100) 1,
            three_plus_pct := pyRound ((three_plus : ℚ) / (n : ℚ) * 100) 1,
            n := n }, notes)

/-- The claim's qualifying first-stop points, stated directly from the spec's
words: the end lap of the first stint of every driver with at least two stints
whose first stint's end lap is strictly greater than 1. -/
def qualifying_first_stops (sessions_data : List RaceStints) : List ℤ :=
  ((sessions_data.flatMap (fun race => race)).filter
    (fun stints => 2 ≤ stints.length ∧ 1 < (stints.headD ⟨"", 0, 0⟩).end_lap)).map
    (fun stints => (stints.headD ⟨"", 0, 0⟩).end_lap)

/-! ### Historical alignment scoring (`historical_scoring.py`, weights from
`historical_weights.py`) -/

def FIRST_STOP_OUTSIDE_IQR_PENALTY_PER_LAP : ℚ := 0.15

def FIRST_STOP_MAX_PENALTY_S : ℚ := 2.0

def SEQUENCE_MATCH_BONUS_S : ℚ := 1.5

def SEQUENCE_PARTIAL_MATCH_FACTOR : ℚ := 0.4

def STOP_COUNT_ALIGNMENT_BONUS_S : ℚ := 0.5

def HISTORICAL_WEIGHT_MASTER : ℚ := 1.0

/-- One ranked entry of `common_strategy_sequences`. -/
structure SeqInfo where
  stops : ℤ
  sequence : List String
  frequency_pct : ℚ
  n : ℕ

/-- The parts of the `CircuitHistoricalProfile` dict read by the scorer. -/
structure Profile where
  first_stop_lap : Option FirstStopStats
  stop_count_distribution : Option StopCountDistribution
  common_strategy_sequences : List SeqInfo

/-- A strategy after scoring: the (possibly) updated result plus the recorded
`historical_adjustment_s` (absent when the master weight disables scoring). -/
structure ScoredStrategy where
  result : StrategyResult
  historical_adjustment_s : Option ℚ

/-- `_sequences_match`: exact sequence match, case-insensitive. -/
def sequences_match (strat_seq hist_seq : List String) : Bool :=
  strat_seq.length = hist_seq.length
    && (strat_seq.zip hist_seq).all (fun p => p.1.toUpper = p.2.toUpper)

/-- `_sequences_partial_match`: same multiset of compounds, different order
(equal sorted uppercased lists). -/
def sequences_partial_match (strat_seq hist_seq : List String) : Bool :=
  strat_seq.length = hist_seq.length
    && List.insertionSort (· ≤ ·) (strat_seq.map (·.toUpper))
        = List.insertionSort (· ≤ ·) (hist_seq.map (·.toUpper))

/-- `_score_first_stop`: penalty when the first stop lies outside the
historical IQR (note string omitted). -/
def score_first_stop (actual_lap : ℤ) (fs : FirstStopStats) : ℚ :=
  if fs.p25 ≤ (actual_lap : ℚ) ∧ (actual_lap : ℚ) ≤ fs.p75 then 0
  else
    let distance := max (fs.p25 - (actual_lap : ℚ)) (max ((actual_lap : ℚ) - fs.p75) 0)
    min (distance * FIRST_STOP_OUTSIDE_IQR_PENALTY_PER_LAP) FIRST_STOP_MAX_PENALTY_S

/-- The scan loop of `_score_sequence_match`: first matching historical
sequence wins — full bonus on an exact match, partial-factor bonus on a
same-multiset match, 0 if nothing matches. -/
def seq_match_loop (strat_roles : List String) : List SeqInfo → ℚ
  | [] => 0
  | si :: rest =>
    if sequences_match strat_roles si.sequence then
      -SEQUENCE_MATCH_BONUS_S * (si.frequency_pct / 100)
    else if sequences_partial_match strat_roles si.sequence then
      -SEQUENCE_MATCH_BONUS_S * SEQUENCE_PARTIAL_MATCH_FACTOR * (si.frequency_pct / 100)
    else seq_match_loop strat_roles rest

/-- `_score_sequence_match` (note string omitted). -/
def score_sequence_match (strat_compounds : List String) (sequences : List SeqInfo)
    (compound_to_role : Option (String → String)) : ℚ :=
  let strat_roles := match compound_to_role with
    | some m => strat_compounds.map m
    | none => strat_compounds
  seq_match_loop strat_roles sequences

/-- `_score_stop_count`: bonus when the stop count matches the dominant
historical pattern (`max` over the dict `{1: one_stop_pct, 2: two_stop_pct}`
returns key 1 on a tie, as Python's `max` does). -/
def score_stop_count (stops : ℤ) (sd : StopCountDistribution) : ℚ :=
  let dominant : ℤ := if sd.one_stop_pct ≥ sd.two_stop_pct then 1 else 2
  let dominant_pct := if sd.one_stop_pct ≥ sd.two_stop_pct then sd.one_stop_pct
    else sd.two_stop_pct
  if stops = dominant ∧ dominant_pct > 40 then
    -STOP_COUNT_ALIGNMENT_BONUS_S * (dominant_pct / 100)
  else 0

/-- `apply_historical_alignment`: per candidate, the three seconds-valued
adjustments are summed, scaled by the master weight, rounded to 3 decimals and
added to `total_time_s`; a master weight of 0 leaves the list untouched. -/
def apply_historical_alignment (strategies : List StrategyResult)
    (profile : Profile) (compound_to_role : Option (String → String)) :
    List ScoredStrategy :=
  if HISTORICAL_WEIGHT_MASTER = 0 then strategies.map (fun s => ⟨s, none⟩)
  else
    strategies.map (fun strat =>
      let adj1 : ℚ := match profile.first_stop_lap with
        | some fs =>
          if (1 : ℤ) ≤ strat.stops ∧ strat.pit_stop_laps ≠ [] then
            score_first_stop (strat.pit_stop_laps.headD 0) fs
          else 0
        | none => 0
      let adj2 : ℚ :=
        if profile.common_strategy_sequences.isEmpty then 0
        else
          score_sequence_match (strat.stints.map (fun s => s.compound))
            profile.common_strategy_sequences compound_to_role
      let adj3 : ℚ := match profile.stop_count_distribution with
        | some sd => score_stop_count strat.stops sd
        | none => 0
      let final_adj := pyRound ((adj1 + adj2 + adj3) * HISTORICAL_WEIGHT_MASTER) 3
      ⟨{ strat with total_time_s := strat.total_time_s + final_adj }, some final_adj⟩)

/-! ### Temperature adjuster (`apply_temp_adjustment` in `fastf1_helpers.py`) -/

/-- The compound's numeric code:
`int(code[1]) if code.startswith("C") and code[1:].isdigit() else 3`
(note the source reads only the second character's digit value). -/
def code_num (code : String) : ℤ :=
  match code.toList with
  | c :: d :: rest =>
    if c = 'C' ∧ (d :: rest).all (fun ch => ch.isDigit) then (d.toNat : ℤ) - 48
    else 3
  | _ => 3

/-- The per-code heat sensitivity `1.0 + 0.05 * (code_num - 3)`. -/
def sensitivity (code : String) : ℚ :=
  1 + 0.05 * ((code_num code : ℚ) - 3)

/-- `base_mult = (track_temp_c / 25.0) ** 1.2`. -/
noncomputable def base_mult (track_temp_c : ℝ) : ℝ :=
  (track_temp_c / 25) ^ (1.2 : ℝ)

/-- The effective multiplier `mult = base_mult * sensitivity` applied to a
compound's rates by `apply_temp_adjustment`. -/
noncomputable def eff_mult (track_temp_c : ℝ) (code : String) : ℝ :=
  base_mult track_temp_c * ((sensitivity code : ℚ) : ℝ)

/-- The `temp_multiplier` value recorded in the adjusted table:
`round(mult, 3)`. -/
noncomputable def temp_multiplier (track_temp_c : ℝ) (code : String) : ℝ :=
  pyRound (eff_mult track_temp_c code) 3

/-- The per-pair raw (unrounded) stint total used by the builder and the
optimizer evaluator. -/
def stint_total_of (base_lap : ℚ) (all_params : String → CompoundParams)
    (p : String × ℤ) : ℚ :=
  (stint_time p.2 base_lap (all_params p.1).base_pace_offset
    (all_params p.1).avg_deg_s_per_lap (all_params p.1).cliff_onset_lap
    (all_params p.1).cliff_rate_s_per_lap2).total

/-! ### Concrete fixtures used by witnesses and counterexamples -/

/-- A degenerate parameter table: no degradation, no cliff, no offset. -/
def flat_params : String → CompoundParams := fun _ =>
  { avg_deg_s_per_lap := 0, cliff_onset_lap := 20, cliff_rate_s_per_lap2 := 0,
    typical_max_stint_laps := 40, base_pace_offset := 0 }

/-- The strategy exhibiting the rounding discrepancy of `_build_strategy`'s
total-time invariant: two 5-lap stints at `base_lap = 60.00012`,
`pit_loss = 22.0002`. -/
def rounding_gap_strategy : StrategyResult :=
  build_strategy "x" ["A", "B"] [5, 5] 60.00012 22.0002 flat_params

/-- A parameter table where compound `"A"` does not degrade and `"B"` degrades
by one second per lap, so a 1-stop is fastest with the longest legal first
stint. -/
def skewed_params : String → CompoundParams := fun c =>
  if c = "A" then
    { avg_deg_s_per_lap := 0, cliff_onset_lap := 20, cliff_rate_s_per_lap2 := 0,
      typical_max_stint_laps := 40, base_pace_offset := 0 }
  else
    { avg_deg_s_per_lap := 1, cliff_onset_lap := 20, cliff_rate_s_per_lap2 := 0,
      typical_max_stint_laps := 40, base_pace_offset := 0 }

/-- The damp-scenario strategy list of spec §8: 58 laps, rain 0.4, one slick
compound. -/
def damp_example_strategies : List StrategyResult :=
  generate_wet_strategies "damp" 0.4 58 90 20 ["C3"] flat_params

/-- The first strategy generated in the damp scenario (the INTER→C3 1-stop). -/
def damp_example_head : StrategyResult :=
  damp_example_strategies.headD
    (build_strategy "" [] [] 0 0 flat_params)

/-- One race with one driver who never pitted (a single stint). -/
def single_stint_sessions : List RaceStints := [[[⟨"SOFT", 1, 10⟩]]]

/-- A race with four drivers who each pitted once, first stops at laps
10, 12, 14 and 20. -/
def ex_first_stop_sessions : List RaceStints :=
  [[[⟨"S", 1, 10⟩, ⟨"M", 11, 30⟩], [⟨"S", 1, 12⟩, ⟨"M", 13, 30⟩],
    [⟨"S", 1, 14⟩, ⟨"M", 15, 30⟩], [⟨"S", 1, 20⟩, ⟨"M", 21, 30⟩]]]

/-- The statistics record for `ex_first_stop_sessions`. -/
def ex_first_stop_record : FirstStopStats :=
  { median := 13, p25 := 11.5, p75 := 15.5, iqr := 4, n := 4 }

/-- A well-formed historical profile used to witness the scorer bounds. -/
def ex_profile : Profile :=
  { first_stop_lap := some ⟨13, 11.5, 15.5, 4, 4⟩,
    stop_count_distribution := some ⟨60, 30, 10, 10⟩,
    common_strategy_sequences := [⟨1, ["MEDIUM", "HARD"], 75, 3⟩] }

/-! ## Theorems -/

theorem roundHE_intCast {α : Type} [LinearOrderedField α] [FloorRing α] (n : ℤ) :
    roundHE (n : α) = n := by
  unfold roundHE
  rw [Int.floor_intCast]
  simp

theorem abs_roundHE_sub {α : Type} [LinearOrderedField α] [FloorRing α] (x : α) :
    |(roundHE x : α) - x| ≤ 1/2 := by
  have h0 : (⌊x⌋ : α) ≤ x := Int.floor_le x
  have h1 : x < ⌊x⌋ + 1 := Int.lt_floor_add_one x
  unfold roundHE
  split
  · rw [abs_sub_comm, abs_of_nonneg (by linarith)]
    linarith
  · split
    · rw [abs_of_nonneg (by push_cast; linarith)]
      push_cast
      linarith
    · split
      · rw [abs_sub_comm, abs_of_nonneg (by linarith)]
        linarith
      · rw [abs_of_nonneg (by push_cast; linarith)]
        push_cast
        linarith

theorem floor_le_roundHE {α : Type} [LinearOrderedField α] [FloorRing α]
    (x : α) : ⌊x⌋ ≤ roundHE x := by
  unfold roundHE
  split
  · omega
  · split
    · omega
    · split <;> omega

theorem roundHE_le_floor_add_one {α : Type} [LinearOrderedField α] [FloorRing α]
    (x : α) : roundHE x ≤ ⌊x⌋ + 1 := by
  unfold roundHE
  split
  · omega
  · split
    · omega
    · split <;> omega

theorem roundHE_mono {α : Type} [LinearOrderedField α] [FloorRing α]
    {x y : α} (h : x ≤ y) : roundHE x ≤ roundHE y := by
  rcases lt_or_eq_of_le (Int.floor_mono h) with hf | hf
  · have hx := roundHE_le_floor_add_one x
    have hy := floor_le_roundHE y
    omega
  · have hfr : x - ⌊x⌋ ≤ y - ⌊y⌋ := by
      rw [← hf]
      linarith
    by_cases h1 : x - ⌊x⌋ < 1/2
    · have hx : roundHE x = ⌊x⌋ := by
        unfold roundHE
        rw [if_pos h1]
      rw [hx, hf]
      exact floor_le_roundHE y
    · by_cases h2 : (1 : α)/2 < x - ⌊x⌋
      · have hy2 : (1 : α)/2 < y - ⌊y⌋ := lt_of_lt_of_le h2 hfr
        have hx : roundHE x = ⌊x⌋ + 1 := by
          unfold roundHE
          rw [if_neg h1, if_pos h2]
        have hy : roundHE y = ⌊y⌋ + 1 := by
          unfold roundHE
          rw [if_neg (not_lt.mpr (le_of_lt hy2)), if_pos hy2]
        omega
      · by_cases he : Even ⌊x⌋
        · have hx : roundHE x = ⌊x⌋ := by
            unfold roundHE
            rw [if_neg h1, if_neg h2, if_pos he]
          rw [hx, hf]
          exact floor_le_roundHE y
        · have hx : roundHE x = ⌊x⌋ + 1 := by
            unfold roundHE
            rw [if_neg h1, if_neg h2, if_neg he]
          have hge : (1 : α)/2 ≤ y - ⌊y⌋ := le_trans (not_lt.mp h1) hfr
          by_cases hy2 : (1 : α)/2 < y - ⌊y⌋
          · have hy : roundHE y = ⌊y⌋ + 1 := by
              unfold roundHE
              rw [if_neg (not_lt.mpr hge), if_pos hy2]
            omega
          · have hy : roundHE y = ⌊y⌋ + 1 := by
              unfold roundHE
              rw [if_neg (not_lt.mpr hge), if_neg hy2, if_neg (hf ▸ he)]
            omega

theorem pyRound_mono {α : Type} [LinearOrderedField α] [FloorRing α]
    {x y : α} (d : ℕ) (h : x ≤ y) : pyRound x d ≤ pyRound y d := by
  unfold pyRound
  have hp : (0 : α) < 10 ^ d := by positivity
  have h2 := roundHE_mono (α := α) (mul_le_mul_of_nonneg_right h (le_of_lt hp))
  exact div_le_div_of_nonneg_right (by exact_mod_cast h2) hp.le

theorem abs_pyRound_sub {α : Type} [LinearOrderedField α] [FloorRing α]
    (x : α) (d : ℕ) : |pyRound x d - x| ≤ 1 / (2 * 10 ^ d) := by
  have hp : (0 : α) < 10 ^ d := by positivity
  have h := abs_roundHE_sub (x * 10 ^ d)
  have key : pyRound x d - x = ((roundHE (x * 10 ^ d) : α) - x * 10 ^ d) / 10 ^ d := by
    unfold pyRound
    field_simp
    ring
  rw [key, abs_div, abs_of_pos hp, div_le_div_iff₀ hp (by positivity)]
  calc |(roundHE (x * 10 ^ d) : α) - x * 10 ^ d| * (2 * 10 ^ d)
      ≤ (1/2) * (2 * 10 ^ d) := mul_le_mul_of_nonneg_right h (by positivity)
    _ = 1 * 10 ^ d := by ring

theorem pyRound_int_div {α : Type} [LinearOrderedField α] [FloorRing α]
    (k : ℤ) (d : ℕ) : pyRound ((k : α) / 10 ^ d) d = (k : α) / 10 ^ d := by
  unfold pyRound
  have hp : (10 : α) ^ d ≠ 0 := by positivity
  rw [div_mul_cancel₀ _ hp, roundHE_intCast]

/-! ### Data model (`simulate.py`) -/

theorem lap_time_eq_max_form (n : ℤ) (b o d : ℚ) (onset : ℤ) (c : ℚ) :
    lap_time n b o d onset c = lap_time_max_form n b o d onset c := by
  unfold lap_time lap_time_max_form
  by_cases h : n > onset
  · rw [if_pos h, max_eq_right (by omega : (0 : ℤ) ≤ n - onset)]
  · rw [if_neg h, max_eq_left (by omega : n - onset ≤ (0 : ℤ))]
    simp

theorem sum_range_cast (n : ℕ) :
    ∑ i ∈ Finset.range n, (i : ℚ) = n * (n - 1) / 2 := by
  induction n with
  | zero => simp
  | succ m ih =>
    rw [Finset.sum_range_succ, ih]
    push_cast
    ring

theorem sum_linear_terms (L : ℕ) (b o d : ℚ) :
    ∑ n ∈ Finset.range L, ((b + o) + (n : ℚ) * d)
      = (L : ℚ) * (b + o) + d * (L : ℚ) * ((L : ℚ) - 1) / 2 := by
  rw [Finset.sum_add_distrib, Finset.sum_const, Finset.card_range, nsmul_eq_mul,
    ← Finset.sum_mul, sum_range_cast]
  ring

theorem sum_range_split (g : ℕ → ℚ) (a b : ℕ) :
    ∑ n ∈ Finset.range (a + b), g n
      = (∑ n ∈ Finset.range a, g n) + ∑ i ∈ Finset.range b, g (a + i) := by
  induction b with
  | zero => simp
  | succ m ih =>
    rw [show a + (m + 1) = (a + m) + 1 from rfl, Finset.sum_range_succ, ih,
      Finset.sum_range_succ]
    ring

/-- C5: for every `laps ≥ 1` and `cliff_onset ≥ 0`, the total returned by
`_stint_time` (closed-form linear region plus explicit cliff-tail summation)
equals the naive lap-by-lap sum of the lap-time model
`base_lap + pace_offset + n·deg_rate + cliff_rate·max(0, n−cliff_onset)²`
over `n = 0 .. laps−1`; and for `laps ≤ 0` it returns all zeros. -/
theorem stint_time_eq_naive_sum (laps : ℤ) (b o d : ℚ) (onset : ℤ) (c : ℚ) :
    (1 ≤ laps → 0 ≤ onset →
      (stint_time laps b o d onset c).total
        = naive_stint_total laps.toNat b o d onset c)
    ∧ (laps ≤ 0 → stint_time laps b o d onset c = ⟨0, 0, 0, 0⟩) := by
  constructor
  · intro h1 h0
    obtain ⟨L, rfl⟩ : ∃ L : ℕ, laps = (L : ℤ) :=
      ⟨laps.toNat, (Int.toNat_of_nonneg (by omega)).symm⟩
    obtain ⟨O, rfl⟩ : ∃ O : ℕ, onset = (O : ℤ) :=
      ⟨onset.toNat, (Int.toNat_of_nonneg h0).symm⟩
    unfold stint_time
    rw [if_neg (by exact_mod_cast not_le.mpr (by omega : (0 : ℤ) < L))]
    by_cases hcase : (L : ℤ) ≤ (O : ℤ) + 1
    · have hterm : ∀ n ∈ Finset.range L,
          lap_time_max_form (n : ℤ) b o d (O : ℤ) c = (b + o) + (n : ℚ) * d := by
        intro n hn
        have hn' : n < L := Finset.mem_range.mp hn
        unfold lap_time_max_form
        rw [max_eq_left (by omega : (n : ℤ) - (O : ℤ) ≤ 0)]
        push_cast
        ring
      dsimp only
      rw [min_eq_left hcase, if_neg (not_lt.mpr hcase)]
      unfold naive_stint_total
      rw [Int.toNat_natCast, Finset.sum_congr rfl hterm, sum_linear_terms]
      push_cast
      simp
    · have hLO : O + 1 < L := by omega
      set cc : ℕ := L - (O + 1) with hcc
      have hsplit : L = (O + 1) + cc := by omega
      have htoNat : ((L : ℤ) - ((O : ℤ) + 1)).toNat = cc := by omega
      dsimp only
      rw [min_eq_right (by omega : (O : ℤ) + 1 ≤ (L : ℤ)),
        if_pos (by omega : (L : ℤ) > (O : ℤ) + 1), htoNat]
      unfold naive_stint_total
      rw [Int.toNat_natCast, hsplit, sum_range_split]
      have hlin : ∀ n ∈ Finset.range (O + 1),
          lap_time_max_form (n : ℤ) b o d (O : ℤ) c = (b + o) + (n : ℚ) * d := by
        intro n hn
        have hn' : n < O + 1 := Finset.mem_range.mp hn
        unfold lap_time_max_form
        rw [max_eq_left (by omega : (n : ℤ) - (O : ℤ) ≤ 0)]
        push_cast
        ring
      have hcliff : ∀ i ∈ Finset.range cc,
          lap_time_max_form ((O + 1 + i : ℕ) : ℤ) b o d (O : ℤ) c
            = (b + o) + (((O : ℤ) + 1 + (i : ℕ) : ℤ) : ℚ) * d
              + c * ((((O : ℤ) + 1 + (i : ℕ) : ℤ) - (O : ℤ) : ℤ) : ℚ) ^ 2 := by
        intro i _
        unfold lap_time_max_form
        rw [show ((O + 1 + i : ℕ) : ℤ) - (O : ℤ) = ((i : ℤ) + 1) by push_cast; ring,
          max_eq_right (by omega : (0 : ℤ) ≤ (i : ℤ) + 1)]
        push_cast
        ring
      rw [Finset.sum_congr rfl hlin, sum_linear_terms,
        Finset.sum_congr rfl hcliff]
      push_cast
      ring
  · intro h
    unfold stint_time
    rw [if_pos h]

/-- Witness for C5 at `laps = 5`, `cliff_onset = 2` (and `laps = -1` for the
all-zero branch). -/
theorem stint_time_eq_naive_sum_witness :
    (stint_time 5 90 0 (1/10) 2 (3/100)).total
      = naive_stint_total (Int.toNat 5) 90 0 (1/10) 2 (3/100)
    ∧ stint_time (-1) 90 0 (1/10) 2 (3/100) = ⟨0, 0, 0, 0⟩ :=
  ⟨(stint_time_eq_naive_sum 5 90 0 (1/10) 2 (3/100)).1 (by decide) (by decide),
   (stint_time_eq_naive_sum (-1) 90 0 (1/10) 2 (3/100)).2 (by decide)⟩

/-! ### `_build_strategy` accumulation lemmas -/

theorem build_loop_map_laps (base pit : ℚ) (params : String → CompoundParams)
    (stops : ℤ) (l : List (ℕ × String × ℤ)) (cur : ℤ) :
    (build_loop base pit params stops l cur).1.map (fun s => s.laps)
      = l.map (fun p => p.2.2) := by
  induction l generalizing cur with
  | nil => rfl
  | cons hd tl ih =>
    obtain ⟨i, code, laps⟩ := hd
    simp [build_loop, ih]

theorem build_loop_map_times (base pit : ℚ) (params : String → CompoundParams)
    (stops : ℤ) (l : List (ℕ × String × ℤ)) (cur : ℤ) :
    (build_loop base pit params stops l cur).1.map (fun s => s.stint_time_s)
      = l.map (fun p => pyRound (stint_total_of base params p.2) 3) := by
  induction l generalizing cur with
  | nil => rfl
  | cons hd tl ih =>
    obtain ⟨i, code, laps⟩ := hd
    simp [build_loop, ih, stint_total_of]

theorem build_loop_total (base pit : ℚ) (params : String → CompoundParams)
    (stops : ℤ) (l : List (ℕ × String × ℤ)) (cur : ℤ) :
    (build_loop base pit params stops l cur).2.2
      = (l.map (fun p => stint_total_of base params p.2)).sum
        + (l.countP (fun p => decide ((p.1 : ℤ) < stops)) : ℚ) * pit := by
  induction l generalizing cur with
  | nil => simp [build_loop]
  | cons hd tl ih =>
    obtain ⟨i, code, laps⟩ := hd
    simp only [build_loop, List.map_cons, List.sum_cons, List.countP_cons, ih]
    by_cases h : (i : ℤ) < stops <;>
      simp [h, stint_total_of] <;> push_cast <;> ring

theorem countP_enumFrom_lt {γ : Type} (xs : List γ) (n : ℕ) (m : ℤ)
    (h : (n : ℤ) + xs.length = m + 1) :
    (List.enumFrom n xs).countP (fun p => decide ((p.1 : ℤ) < m))
      = xs.length - 1 := by
  induction xs generalizing n with
  | nil => simp
  | cons x tl ih =>
    simp only [List.enumFrom, List.countP_cons]
    cases tl with
    | nil =>
      have hnm : (n : ℤ) = m := by
        simp only [List.length_cons, List.length_nil] at h
        push_cast at h
        omega
      simp [hnm]
    | cons y tl' =>
      have hlt : (n : ℤ) < m := by
        simp only [List.length_cons] at h
        push_cast at h
        omega
      have ihh := ih (n + 1) (by
        simp only [List.length_cons] at h ⊢
        push_cast at h ⊢
        omega)
      rw [ihh]
      simp [hlt]

theorem abs_sum_map_pyRound3 (xs : List ℚ) :
    |(xs.map (fun x => pyRound x 3)).sum - xs.sum| ≤ (xs.length : ℚ) / 2000 := by
  induction xs with
  | nil => simp
  | cons x tl ih =>
    have hx : |pyRound x 3 - x| ≤ 1 / 2000 := by
      have := abs_pyRound_sub x 3
      norm_num at this ⊢
      linarith
    simp only [List.map_cons, List.sum_cons, List.length_cons]
    have key : pyRound x 3 + (tl.map (fun x => pyRound x 3)).sum - (x + tl.sum)
        = (pyRound x 3 - x) + ((tl.map (fun x => pyRound x 3)).sum - tl.sum) := by
      ring
    rw [key]
    calc |(pyRound x 3 - x) + ((tl.map (fun x => pyRound x 3)).sum - tl.sum)|
        ≤ |pyRound x 3 - x| + |(tl.map (fun x => pyRound x 3)).sum - tl.sum| :=
          abs_add _ _
      _ ≤ 1 / 2000 + (tl.length : ℚ) / 2000 := add_le_add hx ih
      _ = ((tl.length : ℚ) + 1) / 2000 := by ring
      _ = (((tl.length + 1 : ℕ)) : ℚ) / 2000 := by push_cast; ring

/-- C4 (amended): for every `StrategyResult` built by `_build_strategy` from a
non-empty compound sequence and a stint-lap list of the same length,
`total_time_s` differs from `Σ(stint_time_s) + stops×pit_loss` by at most
`(number of stints + 1)·5·10⁻⁴` — not by at most `10⁻³` as claimed, since each
stored `stint_time_s` and the stored `total_time_s` are independently rounded
to 3 decimals. -/
theorem build_strategy_total_within_rounding (name : String) (seq : List String)
    (stint_laps : List ℤ) (base pit : ℚ) (params : String → CompoundParams)
    (note : String) (hne : seq ≠ []) (hlen : seq.length = stint_laps.length) :
    |(build_strategy name seq stint_laps base pit params note).total_time_s
      - (((build_strategy name seq stint_laps base pit params note).stints.map
            (fun s => s.stint_time_s)).sum
        + ((build_strategy name seq stint_laps base pit params note).stops : ℚ) * pit)|
      ≤ ((seq.length : ℚ) + 1) / 2000 := by
  have hpos : 1 ≤ seq.length := by
    cases seq with
    | nil => exact absurd rfl hne
    | cons a l => simp
  set l : List (ℕ × String × ℤ) := (seq.zip stint_laps).enum with hl
  have hzlen : (seq.zip stint_laps).length = seq.length := by
    rw [List.length_zip, hlen, min_self]
  have hllen : l.length = seq.length := by
    rw [hl, List.enum_length, hzlen]
  have hcount : l.countP (fun p => decide ((p.1 : ℤ) < (seq.length : ℤ) - 1))
      = seq.length - 1 := by
    rw [hl, show (seq.zip stint_laps).enum = List.enumFrom 0 (seq.zip stint_laps)
      from rfl, countP_enumFrom_lt _ 0 ((seq.length : ℤ) - 1)
        (by rw [hzlen]; push_cast; ring), hzlen]
  have htot : (build_strategy name seq stint_laps base pit params note).total_time_s
      = pyRound ((l.map (fun p => stint_total_of base params p.2)).sum
          + ((seq.length - 1 : ℕ) : ℚ) * pit) 3 := by
    show pyRound (build_loop base pit params ((seq.length : ℤ) - 1) l 1).2.2 3 = _
    rw [build_loop_total, hcount]
  have hstints : (build_strategy name seq stint_laps base pit params note).stints.map
      (fun s => s.stint_time_s)
      = (l.map (fun p => stint_total_of base params p.2)).map (fun x => pyRound x 3) := by
    show (build_loop base pit params ((seq.length : ℤ) - 1) l 1).1.map
      (fun s => s.stint_time_s) = _
    rw [build_loop_map_times, List.map_map]
    rfl
  have hstops : ((build_strategy name seq stint_laps base pit params note).stops : ℚ)
      = ((seq.length - 1 : ℕ) : ℚ) := by
    show (((seq.length : ℤ) - 1 : ℤ) : ℚ) = _
    push_cast [Nat.cast_sub hpos]
    ring
  set S : List ℚ := l.map (fun p => stint_total_of base params p.2) with hS
  set T : ℚ := S.sum + ((seq.length - 1 : ℕ) : ℚ) * pit with hT
  rw [htot, hstints, hstops]
  have key : pyRound T 3 - ((S.map (fun x => pyRound x 3)).sum
      + ((seq.length - 1 : ℕ) : ℚ) * pit)
      = (pyRound T 3 - T) - ((S.map (fun x => pyRound x 3)).sum - S.sum) := by
    rw [hT]
    ring
  rw [key]
  have h1 : |pyRound T 3 - T| ≤ 1 / 2000 := by
    have := abs_pyRound_sub T 3
    norm_num at this ⊢
    linarith
  have h2 := abs_sum_map_pyRound3 S
  have hSlen : (S.length : ℚ) = (seq.length : ℚ) := by
    rw [hS, List.length_map, hllen]
  calc |(pyRound T 3 - T) - ((S.map (fun x => pyRound x 3)).sum - S.sum)|
      ≤ |pyRound T 3 - T| + |(S.map (fun x => pyRound x 3)).sum - S.sum| :=
        abs_sub _ _
    _ ≤ 1 / 2000 + (S.length : ℚ) / 2000 := add_le_add h1 h2
    _ = ((seq.length : ℚ) + 1) / 2000 := by rw [hSlen]; ring

/-- Witness for C4's amended bound at the concrete two-stint strategy. -/
theorem build_strategy_total_within_rounding_witness :
    |rounding_gap_strategy.total_time_s
      - ((rounding_gap_strategy.stints.map (fun s => s.stint_time_s)).sum
        + (rounding_gap_strategy.stops : ℚ) * 22.0002)|
      ≤ (((["A", "B"] : List String).length : ℚ) + 1) / 2000 :=
  build_strategy_total_within_rounding "x" ["A", "B"] [5, 5] 60.00012 22.0002
    flat_params "" (by decide) (by decide)

/-- Counterexample to C4 as stated: for the two-stint strategy built from
`base_lap = 60.00012`, `pit_loss = 22.0002`, stints `[5, 5]` with no
degradation, `total_time_s = 622.001` but
`Σ(stint_time_s) + stops×pit_loss = 622.0022`, a discrepancy of `1.2·10⁻³`,
which exceeds the claimed `10⁻³` tolerance. -/
theorem rounding_gap_strategy_violates_1e3 :
    ¬ (|rounding_gap_strategy.total_time_s
        - ((rounding_gap_strategy.stints.map (fun s => s.stint_time_s)).sum
          + (rounding_gap_strategy.stops : ℚ) * 22.0002)| ≤ 1/1000) := by
  have h1 : rounding_gap_strategy.total_time_s = 622.001 := by
    norm_num [rounding_gap_strategy, build_strategy, build_loop, flat_params,
      stint_time, lap_time, pyRound, roundHE]
  have h2 : rounding_gap_strategy.stints.map (fun s => s.stint_time_s)
      = [300.001, 300.001] := by
    norm_num [rounding_gap_strategy, build_strategy, build_loop, flat_params,
      stint_time, lap_time, pyRound, roundHE]
  have h3 : rounding_gap_strategy.stops = 1 := by
    norm_num [rounding_gap_strategy, build_strategy]
  rw [h1, h2, h3]
  norm_num [abs_le]

/-! ### Optimizer lemmas -/

theorem build_strategy_laps_pair (name c1 c2 : String) (a b : ℤ)
    (base pit : ℚ) (params : String → CompoundParams) (note : String) :
    (build_strategy name [c1, c2] [a, b] base pit params note).stints.map
      (fun s => s.laps) = [a, b] := by
  show (build_loop base pit params _ [(0, c1, a), (1, c2, b)] 1).1.map
    (fun s => s.laps) = [a, b]
  rw [build_loop_map_laps]
  rfl

theorem build_strategy_laps_triple (name c1 c2 c3 : String) (a b c : ℤ)
    (base pit : ℚ) (params : String → CompoundParams) (note : String) :
    (build_strategy name [c1, c2, c3] [a, b, c] base pit params note).stints.map
      (fun s => s.laps) = [a, b, c] := by
  show (build_loop base pit params _ [(0, c1, a), (1, c2, b), (2, c3, c)] 1).1.map
    (fun s => s.laps) = [a, b, c]
  rw [build_loop_map_laps]
  rfl

/-- C6: every dry 1-stop and 2-stop strategy generated by the optimizers —
including the even-split fallbacks — has stint lap counts summing exactly to
`total_laps`. -/
theorem dry_strategy_laps_sum_eq_total (total_laps : ℤ) (base pit : ℚ)
    (c1 c2 c3 : String) (params : String → CompoundParams) :
    (((optimize_1stop total_laps base pit c1 c2 params).stints.map
        (fun s => s.laps)).sum = total_laps)
    ∧ (((optimize_2stop total_laps base pit c1 c2 c3 params).stints.map
        (fun s => s.laps)).sum = total_laps) := by
  constructor
  · unfold optimize_1stop
    rw [build_strategy_laps_pair]
    simp only [List.sum_cons, List.sum_nil]
    ring
  · unfold optimize_2stop
    rw [build_strategy_laps_triple]
    simp only [List.sum_cons, List.sum_nil]
    ring

theorem foldl_search_step_acc {β : Type} (feasible : β → Bool) (f : β → ℚ)
    (l : List β) (t0 : ℚ) (s0 : β) (h0 : feasible s0 = true) (ht0 : t0 = f s0) :
    ∃ t s, l.foldl (search_step feasible f) (some (t0, s0)) = some (t, s)
      ∧ feasible s = true ∧ t = f s ∧ (s = s0 ∨ s ∈ l) ∧ t ≤ t0
      ∧ ∀ x ∈ l, feasible x = true → t ≤ f x := by
  induction l generalizing t0 s0 with
  | nil => exact ⟨t0, s0, rfl, h0, ht0, Or.inl rfl, le_refl _, by simp⟩
  | cons a l ih =>
    by_cases hfa : feasible a = true
    · by_cases hlt : f a < t0
      · have hstep : search_step feasible f (some (t0, s0)) a = some (f a, a) := by
          simp [search_step, hfa, hlt]
        obtain ⟨t, s, hfold, hfs, hts, hmem, hle, hmin⟩ := ih (f a) a hfa rfl
        refine ⟨t, s, ?_, hfs, hts, ?_, ?_, ?_⟩
        · rw [List.foldl_cons, hstep]
          exact hfold
        · rcases hmem with h | h
          · exact Or.inr (h ▸ List.mem_cons_self a l)
          · exact Or.inr (List.mem_cons_of_mem a h)
        · exact le_trans hle (le_of_lt hlt)
        · intro x hx hfx
          rcases List.mem_cons.mp hx with rfl | hx'
          · exact hle
          · exact hmin x hx' hfx
      · have hstep : search_step feasible f (some (t0, s0)) a = some (t0, s0) := by
          simp [search_step, hfa, hlt]
        obtain ⟨t, s, hfold, hfs, hts, hmem, hle, hmin⟩ := ih t0 s0 h0 ht0
        refine ⟨t, s, ?_, hfs, hts, ?_, hle, ?_⟩
        · rw [List.foldl_cons, hstep]
          exact hfold
        · rcases hmem with h | h
          · exact Or.inl h
          · exact Or.inr (List.mem_cons_of_mem a h)
        · intro x hx hfx
          rcases List.mem_cons.mp hx with rfl | hx'
          · exact le_trans hle (not_lt.mp hlt)
          · exact hmin x hx' hfx
    · have hstep : search_step feasible f (some (t0, s0)) a = some (t0, s0) := by
        simp [search_step, hfa]
      obtain ⟨t, s, hfold, hfs, hts, hmem, hle, hmin⟩ := ih t0 s0 h0 ht0
      refine ⟨t, s, ?_, hfs, hts, ?_, hle, ?_⟩
      · rw [List.foldl_cons, hstep]
        exact hfold
      · rcases hmem with h | h
        · exact Or.inl h
        · exact Or.inr (List.mem_cons_of_mem a h)
      · intro x hx hfx
        rcases List.mem_cons.mp hx with rfl | hx'
        · exact absurd hfx hfa
        · exact hmin x hx' hfx

theorem foldl_search_step_some {β : Type} (feasible : β → Bool) (f : β → ℚ)
    (l : List β) (t : ℚ) (s : β)
    (h : l.foldl (search_step feasible f) none = some (t, s)) :
    s ∈ l ∧ feasible s = true ∧ t = f s
      ∧ ∀ x ∈ l, feasible x = true → t ≤ f x := by
  induction l with
  | nil => exact absurd h (by simp)
  | cons a l ih =>
    by_cases hfa : feasible a = true
    · have hstep : search_step feasible f none a = some (f a, a) := by
        simp [search_step, hfa]
      rw [List.foldl_cons, hstep] at h
      obtain ⟨t', s', hfold, hfs, hts, hmem, hle, hmin⟩ :=
        foldl_search_step_acc feasible f l (f a) a hfa rfl
      rw [hfold] at h
      obtain ⟨rfl, rfl⟩ : t' = t ∧ s' = s := by
        constructor <;> [exact congrArg (fun o => (Option.getD o (0, a)).1) h;
          exact congrArg (fun o => (Option.getD o (0, a)).2) h]
      refine ⟨?_, hfs, hts, ?_⟩
      · rcases hmem with h' | h'
        · exact h' ▸ List.mem_cons_self a l
        · exact List.mem_cons_of_mem a h'
      · intro x hx hfx
        rcases List.mem_cons.mp hx with rfl | hx'
        · exact hle
        · exact hmin x hx' hfx
    · have hstep : search_step feasible f none a = none := by
        simp [search_step, hfa]
      rw [List.foldl_cons, hstep] at h
      obtain ⟨hmem, hfs, hts, hmin⟩ := ih h
      refine ⟨List.mem_cons_of_mem a hmem, hfs, hts, ?_⟩
      intro x hx hfx
      rcases List.mem_cons.mp hx with rfl | hx'
      · exact absurd hfx hfa
      · exact hmin x hx' hfx

theorem foldl_search_step_none {β : Type} (feasible : β → Bool) (f : β → ℚ)
    (l : List β) (h : l.foldl (search_step feasible f) none = none) :
    ∀ x ∈ l, feasible x = false := by
  induction l with
  | nil => simp
  | cons a l ih =>
    by_cases hfa : feasible a = true
    · exfalso
      have hstep : search_step feasible f none a = some (f a, a) := by
        simp [search_step, hfa]
      rw [List.foldl_cons, hstep] at h
      obtain ⟨t', s', hfold, _⟩ := foldl_search_step_acc feasible f l (f a) a hfa rfl
      rw [hfold] at h
      exact Option.noConfusion h
    · have hstep : search_step feasible f none a = none := by
        simp [search_step, hfa]
      rw [List.foldl_cons, hstep] at h
      intro x hx
      rcases List.mem_cons.mp hx with rfl | hx'
      · exact Bool.not_eq_true _ ▸ hfa
      · exact ih h x hx'

theorem mem_split_range1 (total_laps s : ℤ) :
    s ∈ split_range1 total_laps ↔ 5 ≤ s ∧ s ≤ total_laps - 5 := by
  unfold split_range1
  constructor
  · intro hmem
    obtain ⟨i, hi, heq⟩ := List.mem_map.mp hmem
    rw [List.mem_range] at hi
    omega
  · intro ⟨h1, h2⟩
    exact List.mem_map.mpr ⟨(s - 5).toNat, List.mem_range.mpr (by omega), by omega⟩

theorem feasible_split1_iff (total_laps max1 max2 s : ℤ) :
    feasible_split1 total_laps max1 max2 s = true
      ↔ s ≤ max1 ∧ total_laps - s ≤ max2 := by
  unfold feasible_split1
  simp only [Bool.not_eq_true', Bool.or_eq_false_iff, decide_eq_false_iff_not, not_lt]

/-- C3 (amended): whenever at least one split in `[5, total_laps−5]` (the range
Python's `range(5, total_laps-4)` actually scans — the upper endpoint
`total_laps−5` is included, unlike the claimed half-open `[5, total_laps−5)`)
satisfies both stint caps, `_optimize_1stop` returns the strategy built from a
split in that range satisfying the caps which minimizes the total race time
(`_eval_total`: both stint times plus one pit loss) over all such splits. -/
theorem optimize_1stop_minimizes (total_laps : ℤ) (base pit : ℚ) (c1 c2 : String)
    (params : String → CompoundParams)
    (hfeas : ∃ s : ℤ, 5 ≤ s ∧ s ≤ total_laps - 5
      ∧ s ≤ (params c1).typical_max_stint_laps + 5
      ∧ total_laps - s ≤ (params c2).typical_max_stint_laps + 5) :
    ∃ s_opt : ℤ,
      optimize_1stop total_laps base pit c1 c2 params
          = build_strategy ("1-Stop: " ++ c1 ++ " → " ++ c2) [c1, c2]
              [s_opt, total_laps - s_opt] base pit params
        ∧ (5 ≤ s_opt ∧ s_opt ≤ total_laps - 5
            ∧ s_opt ≤ (params c1).typical_max_stint_laps + 5
            ∧ total_laps - s_opt ≤ (params c2).typical_max_stint_laps + 5)
        ∧ ∀ s : ℤ, 5 ≤ s → s ≤ total_laps - 5
            → s ≤ (params c1).typical_max_stint_laps + 5
            → total_laps - s ≤ (params c2).typical_max_stint_laps + 5
            → eval_total [s_opt, total_laps - s_opt] [c1, c2] base pit params
                ≤ eval_total [s, total_laps - s] [c1, c2] base pit params := by
  obtain ⟨s0, h01, h02, h03, h04⟩ := hfeas
  cases hres : (split_range1 total_laps).foldl
      (search_step
        (feasible_split1 total_laps ((params c1).typical_max_stint_laps + 5)
          ((params c2).typical_max_stint_laps + 5))
        (eval_split1 total_laps c1 c2 base pit params))
      none with
  | none =>
    exfalso
    have hall := foldl_search_step_none _ _ _ hres s0
      ((mem_split_range1 _ _).mpr ⟨h01, h02⟩)
    have htrue := (feasible_split1_iff total_laps
      ((params c1).typical_max_stint_laps + 5)
      ((params c2).typical_max_stint_laps + 5) s0).mpr ⟨h03, h04⟩
    rw [htrue] at hall
    exact absurd hall (by simp)
  | some p =>
    obtain ⟨t, s⟩ := p
    obtain ⟨hmem, hfs, hts, hmin⟩ := foldl_search_step_some _ _ _ _ _ hres
    have hbest : best_split1 total_laps base pit c1 c2 params = s := by
      unfold best_split1
      rw [hres]
    refine ⟨s, ?_, ?_, ?_⟩
    · unfold optimize_1stop
      rw [hbest]
    · obtain ⟨hm1, hm2⟩ := (mem_split_range1 _ _).mp hmem
      obtain ⟨hc1, hc2⟩ := (feasible_split1_iff _ _ _ _).mp hfs
      exact ⟨hm1, hm2, hc1, hc2⟩
    · intro s' h1 h2 h3 h4
      have := hmin s' ((mem_split_range1 _ _).mpr ⟨h1, h2⟩)
        ((feasible_split1_iff _ _ _ _).mpr ⟨h3, h4⟩)
      rw [hts] at this
      exact this

/-- Witness for C3's amended optimality statement on a concrete 20-lap race. -/
theorem optimize_1stop_minimizes_witness :
    ∃ s_opt : ℤ,
      optimize_1stop 20 90 20 "A" "B" skewed_params
          = build_strategy ("1-Stop: " ++ "A" ++ " → " ++ "B") ["A", "B"]
              [s_opt, 20 - s_opt] 90 20 skewed_params
        ∧ (5 ≤ s_opt ∧ s_opt ≤ 20 - 5
            ∧ s_opt ≤ (skewed_params "A").typical_max_stint_laps + 5
            ∧ 20 - s_opt ≤ (skewed_params "B").typical_max_stint_laps + 5)
        ∧ ∀ s : ℤ, 5 ≤ s → s ≤ 20 - 5
            → s ≤ (skewed_params "A").typical_max_stint_laps + 5
            → 20 - s ≤ (skewed_params "B").typical_max_stint_laps + 5
            → eval_total [s_opt, 20 - s_opt] ["A", "B"] 90 20 skewed_params
                ≤ eval_total [s, 20 - s] ["A", "B"] 90 20 skewed_params :=
  optimize_1stop_minimizes 20 90 20 "A" "B" skewed_params
    ⟨10, by simp [skewed_params]⟩

theorem eval_total_pair (a b : ℤ) (c1 c2 : String) (base pit : ℚ)
    (params : String → CompoundParams) :
    eval_total [a, b] [c1, c2] base pit params
      = stint_total_of base params (c1, a) + stint_total_of base params (c2, b)
        + pit := by
  simp [eval_total, stint_total_of, List.enum, List.enumFrom]
  ring

theorem stint_total_linear (laps : ℤ) (b o d : ℚ) (onset : ℤ) (c : ℚ)
    (h1 : 0 < laps) (h2 : laps ≤ onset + 1) :
    (stint_time laps b o d onset c).total
      = (laps : ℚ) * (b + o) + d * (laps : ℚ) * ((laps : ℚ) - 1) / 2 := by
  unfold stint_time
  rw [if_neg (by omega : ¬ laps ≤ 0)]
  dsimp only
  rw [min_eq_left h2, if_neg (by omega : ¬ laps > onset + 1)]
  simp

theorem skewed_eval_closed (x : ℤ) (h1 : 0 < x) (h2 : x < 20) :
    eval_total [x, 20 - x] ["A", "B"] 90 20 skewed_params
      = 1820 + ((20 - x : ℤ) : ℚ) * ((19 - x : ℤ) : ℚ) / 2 := by
  rw [eval_total_pair]
  unfold stint_total_of
  have hA : skewed_params "A" = ⟨0, 20, 0, 40, 0⟩ := by simp [skewed_params]
  have hB : skewed_params "B" = ⟨1, 20, 0, 40, 0⟩ := by simp [skewed_params]
  rw [hA, hB]
  dsimp only
  rw [stint_total_linear x 90 0 0 20 0 h1 (by omega),
    stint_total_linear (20 - x) 90 0 1 20 0 (by omega) (by omega)]
  push_cast
  ring

theorem skewed_best_split_eq_15 :
    best_split1 20 90 20 "A" "B" skewed_params = 15 := by
  have hA45 : (skewed_params "A").typical_max_stint_laps + 5 = 45 := by
    simp [skewed_params]
  have hB45 : (skewed_params "B").typical_max_stint_laps + 5 = 45 := by
    simp [skewed_params]
  unfold best_split1
  rw [hA45, hB45]
  cases hres : (split_range1 20).foldl
      (search_step (feasible_split1 20 45 45)
        (eval_split1 20 "A" "B" 90 20 skewed_params)) none with
  | none =>
    exfalso
    have hall := foldl_search_step_none _ _ _ hres 15
      ((mem_split_range1 20 15).mpr (by norm_num))
    have htrue : feasible_split1 20 45 45 15 = true := by decide
    rw [htrue] at hall
    exact absurd hall (by simp)
  | some p =>
    obtain ⟨t, s⟩ := p
    obtain ⟨hmem, hfs, hts, hmin⟩ := foldl_search_step_some _ _ _ _ _ hres
    obtain ⟨hm1, hm2⟩ := (mem_split_range1 20 s).mp hmem
    by_contra hne
    have hs14 : s ≤ 14 := by
      rcases lt_or_eq_of_le hm2 with h | h
      · omega
      · exact absurd (by omega : s = 15) hne
    have h15 := hmin 15 ((mem_split_range1 20 15).mpr (by norm_num)) (by decide)
    rw [hts] at h15
    have hfs' : eval_split1 20 "A" "B" 90 20 skewed_params s
        = 1820 + ((20 - s : ℤ) : ℚ) * ((19 - s : ℤ) : ℚ) / 2 := by
      unfold eval_split1
      exact skewed_eval_closed s (by omega) (by omega)
    have hf15 : eval_split1 20 "A" "B" 90 20 skewed_params 15 = 1830 := by
      unfold eval_split1
      rw [skewed_eval_closed 15 (by norm_num) (by norm_num)]
      norm_num
    rw [hfs', hf15] at h15
    have h6 : (6 : ℚ) ≤ ((20 - s : ℤ) : ℚ) := by
      exact_mod_cast (by omega : (6 : ℤ) ≤ 20 - s)
    have h5 : (5 : ℚ) ≤ ((19 - s : ℤ) : ℚ) := by
      exact_mod_cast (by omega : (5 : ℤ) ≤ 19 - s)
    nlinarith

/-- Counterexample to C3 as stated: at `total_laps = 20` with a non-degrading
first compound and a heavily degrading second one, `_optimize_1stop` selects
the split `15 = total_laps − 5`, which is outside the claimed half-open range
`[5, total_laps−5)`, and is strictly faster than the split `14`, the best
split inside that claimed range. -/
theorem optimize_1stop_range_counterexample :
    ((optimize_1stop 20 90 20 "A" "B" skewed_params).stints.map
        (fun s => s.laps)) = [15, 5]
      ∧ ¬ ((15 : ℤ) < 20 - 5)
      ∧ eval_total [15, 20 - 15] ["A", "B"] 90 20 skewed_params
          < eval_total [14, 20 - 14] ["A", "B"] 90 20 skewed_params := by
  refine ⟨?_, by norm_num, ?_⟩
  · have h := build_strategy_laps_pair ("1-Stop: " ++ "A" ++ " → " ++ "B") "A" "B"
      (best_split1 20 90 20 "A" "B" skewed_params)
      (20 - best_split1 20 90 20 "A" "B" skewed_params) 90 20 skewed_params ""
    unfold optimize_1stop
    rw [skewed_best_split_eq_15] at h ⊢
    norm_num at h ⊢
    exact h
  · rw [show (20 : ℤ) - 15 = 5 by norm_num, show (20 : ℤ) - 14 = 6 by norm_num]
    rw [show eval_total [15, 5] ["A", "B"] 90 20 skewed_params
        = eval_total [15, 20 - 15] ["A", "B"] 90 20 skewed_params by norm_num,
      show eval_total [14, 6] ["A", "B"] 90 20 skewed_params
        = eval_total [14, 20 - 14] ["A", "B"] 90 20 skewed_params by norm_num,
      skewed_eval_closed 15 (by norm_num) (by norm_num),
      skewed_eval_closed 14 (by norm_num) (by norm_num)]
    norm_num

/-- C7: in damp condition with `total_laps = 58` and `rain_intensity = 0.4`
the crossover lap is 11, every generated 1-stop (INTER→slick) strategy has a
first stint of exactly 11 laps (and a 47-lap second stint), and in general
the damp crossover is `total_laps·rain_intensity·0.5` truncated to an integer
and clamped to `[5, total_laps−10]`. -/
theorem damp_crossover_eleven (slick_codes : List String) (base pit : ℚ)
    (params : String → CompoundParams) (strat : StrategyResult)
    (hmem : strat ∈ generate_wet_strategies "damp" 0.4 58 base pit slick_codes params)
    (hstops : strat.stops = 1) :
    strat.stints.map (fun s => s.laps) = [11, 47]
    ∧ damp_crossover 58 (0.4 : ℚ) = 11
    ∧ ∀ (total_laps : ℤ) (rain : ℚ),
        damp_crossover total_laps rain
          = max 5 (min (pyInt ((total_laps : ℚ) * rain * 0.5)) (total_laps - 10)) := by
  have hc : damp_crossover 58 (0.4 : ℚ) = 11 := by
    norm_num [damp_crossover, pyInt]
  refine ⟨?_, hc, fun _ _ => rfl⟩
  unfold generate_wet_strategies at hmem
  rw [if_pos rfl] at hmem
  dsimp only at hmem
  rw [hc] at hmem
  rcases List.mem_append.mp hmem with h1 | h2
  · obtain ⟨sc, _, rfl⟩ := List.mem_map.mp h1
    rw [build_strategy_laps_pair]
    norm_num
  · exfalso
    obtain ⟨sc1, _, h2⟩ := List.mem_flatMap.mp h2
    obtain ⟨sc2, _, h2⟩ := List.mem_flatMap.mp h2
    by_cases h12 : sc1 = sc2
    · rw [if_pos h12] at h2
      exact absurd h2 (List.not_mem_nil strat)
    · rw [if_neg h12] at h2
      norm_num at h2
      rw [h2] at hstops
      simp [build_strategy] at hstops

/-- Witness for C7: the concrete damp scenario with one slick compound. -/
theorem damp_crossover_eleven_witness :
    damp_example_head.stints.map (fun s => s.laps) = [11, 47] := by
  have hne : damp_example_strategies ≠ [] := by
    simp [damp_example_strategies, generate_wet_strategies]
  have hmem : damp_example_head ∈ damp_example_strategies := by
    unfold damp_example_head
    cases hl : damp_example_strategies with
    | nil => exact absurd hl hne
    | cons a l => simp
  have hstops : damp_example_head.stops = 1 := by
    simp [damp_example_head, damp_example_strategies, generate_wet_strategies,
      build_strategy]
  exact (damp_crossover_eleven ["C3"] 90 20 flat_params damp_example_head
    hmem hstops).1

/-! ### Stop-count distribution lemmas -/

theorem mem_stop_counts (sessions : List RaceStints) (c : ℕ)
    (hc : c ∈ stop_counts sessions) :
    ∃ race ∈ sessions, ∃ drv ∈ race, c = drv.length - 1 := by
  induction sessions with
  | nil => exact absurd hc (List.not_mem_nil c)
  | cons race rest ih =>
    unfold stop_counts at hc
    rw [List.foldr_cons, List.mem_append] at hc
    rcases hc with h | h
    · obtain ⟨drv, hdrv, rfl⟩ := List.mem_map.mp h
      exact ⟨race, List.mem_cons_self race rest, drv, hdrv, rfl⟩
    · obtain ⟨r, hr, drv, hdrv, heq⟩ := ih h
      exact ⟨r, List.mem_cons_of_mem race hr, drv, hdrv, heq⟩

theorem countP_stop_partition (l : List ℕ) (h : ∀ c ∈ l, 1 ≤ c) :
    l.countP (fun s => s = 1) + l.countP (fun s => s = 2)
      + l.countP (fun s => s ≥ 3) = l.length := by
  induction l with
  | nil => simp
  | cons a tl ih =>
    simp only [List.countP_cons, List.length_cons]
    have ha := h a (List.mem_cons_self a tl)
    have ihh := ih (fun c hc => h c (List.mem_cons_of_mem a hc))
    by_cases h1 : a = 1
    · simp [h1, ge_iff_le] at ihh ⊢
      omega
    · by_cases h2 : a = 2
      · simp [h1, h2, ge_iff_le] at ihh ⊢
        omega
      · have h3 : 3 ≤ a := by omega
        simp [h1, h2, h3, ge_iff_le] at ihh ⊢
        omega

/-- C2 (amended): for a non-empty input in which every driver has at least two
stints (i.e. at least one pit stop), the stop-count distribution percentages
sum to 100 within ±0.2; without that restriction the claim fails, because
drivers with zero stops are counted in `n` but fall in none of the three
buckets. -/
theorem stop_count_distribution_sums_to_100 (sessions : List RaceStints)
    (notes : List String) (hne : stop_counts sessions ≠ [])
    (hall : ∀ race ∈ sessions, ∀ drv ∈ race, 2 ≤ drv.length) :
    ∃ d, (compute_stop_count_distribution sessions notes).1 = some d
      ∧ |d.one_stop_pct + d.two_stop_pct + d.three_plus_pct - 100| ≤ 0.2 := by
  have hstops : ∀ c ∈ stop_counts sessions, 1 ≤ c := by
    intro c hc
    obtain ⟨race, hrace, drv, hdrv, rfl⟩ := mem_stop_counts sessions c hc
    have := hall race hrace drv hdrv
    omega
  have hempty : (stop_counts sessions).isEmpty = false := by
    cases hl : stop_counts sessions with
    | nil => exact absurd hl hne
    | cons a l => rfl
  unfold compute_stop_count_distribution
  dsimp only
  rw [if_neg (by rw [hempty]; simp)]
  set cnts := stop_counts sessions with hcnts
  set n := cnts.length with hn
  set one := cnts.countP (fun s => s = 1) with hone
  set two := cnts.countP (fun s => s = 2) with htwo
  set three := cnts.countP (fun s => s ≥ 3) with hthree
  refine ⟨_, rfl, ?_⟩
  have hpart : one + two + three = n := countP_stop_partition cnts hstops
  have hn0 : 0 < n := by
    rw [hn]
    cases hl : cnts with
    | nil => exact absurd hl hne
    | cons a l => simp
  have hsum : (one : ℚ) / (n : ℚ) * 100 + (two : ℚ) / (n : ℚ) * 100
      + (three : ℚ) / (n : ℚ) * 100 = 100 := by
    have hnq : (n : ℚ) ≠ 0 := by
      exact_mod_cast Nat.pos_iff_ne_zero.mp hn0
    field_simp
    push_cast [← hpart]
    ring
  have e1 := abs_pyRound_sub ((one : ℚ) / (n : ℚ) * 100) 1
  have e2 := abs_pyRound_sub ((two : ℚ) / (n : ℚ) * 100) 1
  have e3 := abs_pyRound_sub ((three : ℚ) / (n : ℚ) * 100) 1
  norm_num at e1 e2 e3 ⊢
  have key : pyRound ((one : ℚ) / (n : ℚ) * 100) 1 + pyRound ((two : ℚ) / (n : ℚ) * 100) 1
      + pyRound ((three : ℚ) / (n : ℚ) * 100) 1 - 100
      = (pyRound ((one : ℚ) / (n : ℚ) * 100) 1 - (one : ℚ) / (n : ℚ) * 100)
        + ((pyRound ((two : ℚ) / (n : ℚ) * 100) 1 - (two : ℚ) / (n : ℚ) * 100)
          + (pyRound ((three : ℚ) / (n : ℚ) * 100) 1 - (three : ℚ) / (n : ℚ) * 100)) := by
    linarith
  rw [key]
  calc |(pyRound ((one : ℚ) / (n : ℚ) * 100) 1 - (one : ℚ) / (n : ℚ) * 100)
        + ((pyRound ((two : ℚ) / (n : ℚ) * 100) 1 - (two : ℚ) / (n : ℚ) * 100)
          + (pyRound ((three : ℚ) / (n : ℚ) * 100) 1 - (three : ℚ) / (n : ℚ) * 100))|
      ≤ |pyRound ((one : ℚ) / (n : ℚ) * 100) 1 - (one : ℚ) / (n : ℚ) * 100|
        + (|pyRound ((two : ℚ) / (n : ℚ) * 100) 1 - (two : ℚ) / (n : ℚ) * 100|
          + |pyRound ((three : ℚ) / (n : ℚ) * 100) 1 - (three : ℚ) / (n : ℚ) * 100|) := by
        exact le_trans (abs_add _ _) (by gcongr; exact abs_add _ _)
    _ ≤ 1/20 + (1/20 + 1/20) := by
        gcongr
    _ ≤ 1/5 := by norm_num

/-- Witness for C2's amended statement: two drivers, a 1-stop and a 2-stop. -/
theorem stop_count_distribution_sums_to_100_witness :
    ∃ d, (compute_stop_count_distribution
        [[[⟨"S", 1, 10⟩, ⟨"M", 11, 30⟩], [⟨"S", 1, 8⟩, ⟨"M", 9, 20⟩, ⟨"H", 21, 30⟩]]]
        []).1 = some d
      ∧ |d.one_stop_pct + d.two_stop_pct + d.three_plus_pct - 100| ≤ 0.2 :=
  stop_count_distribution_sums_to_100
    [[[⟨"S", 1, 10⟩, ⟨"M", 11, 30⟩], [⟨"S", 1, 8⟩, ⟨"M", 9, 20⟩, ⟨"H", 21, 30⟩]]]
    [] (by simp [stop_counts]) (by decide)

/-- Counterexample to C2 as stated: a single driver with a single stint gives
`one_stop_pct = two_stop_pct = three_plus_pct = 0`, summing to 0, not 100. -/
theorem stop_count_sum_counterexample :
    ∃ d, (compute_stop_count_distribution single_stint_sessions []).1 = some d
      ∧ ¬ (|d.one_stop_pct + d.two_stop_pct + d.three_plus_pct - 100| ≤ 0.2) := by
  refine ⟨⟨0, 0, 0, 1⟩, ?_, by norm_num⟩
  norm_num [compute_stop_count_distribution, stop_counts, single_stint_sessions,
    pyRound, roundHE]

/-! ### First-stop statistics lemmas -/

theorem race_first_stops_eq (drivers : List (List StintRec)) :
    race_first_stops drivers
      = (drivers.filter
          (fun stints => 2 ≤ stints.length
            ∧ 1 < (stints.headD ⟨"", 0, 0⟩).end_lap)).map
        (fun stints => (stints.headD ⟨"", 0, 0⟩).end_lap) := by
  induction drivers with
  | nil => rfl
  | cons d rest ih =>
    unfold race_first_stops at ih ⊢
    rw [List.foldr_cons]
    cases d with
    | nil =>
      rw [ih]
      simp [List.filter_cons]
    | cons s0 t =>
      cases t with
      | nil =>
        rw [ih]
        simp [List.filter_cons]
      | cons s1 t' =>
        by_cases hend : s0.end_lap ≤ 1
        · show (if s0.end_lap ≤ 1 then _ else _) = _
          rw [if_pos hend, ih]
          simp [List.filter_cons, show ¬ ((1 : ℤ) < s0.end_lap) by omega]
        · show (if s0.end_lap ≤ 1 then _ else _) = _
          rw [if_neg hend, ih]
          simp [List.filter_cons, show (1 : ℤ) < s0.end_lap by omega]

theorem first_stop_laps_eq_qualifying (sessions : List RaceStints) :
    first_stop_laps sessions = qualifying_first_stops sessions := by
  induction sessions with
  | nil => rfl
  | cons race rest ih =>
    unfold first_stop_laps at ih ⊢
    unfold qualifying_first_stops at ih ⊢
    rw [List.foldr_cons, ih, race_first_stops_eq]
    simp [List.filter_append]

/-- C9: the first-stop statistics computation returns `none` — appending a
diagnostic note and never raising — exactly when fewer than 4 qualifying
first-stop points exist (a qualifying point being the end lap of the first
stint of a driver with at least two stints, with that end lap strictly
greater than 1); otherwise it returns the interpolated median/p25/p75 and
`iqr = p75 − p25` over those points (each rounded to one decimal) together
with their count. -/
theorem first_stop_stats_none_iff (sessions : List RaceStints)
    (notes : List String) :
    ((compute_first_stop_stats sessions notes).1 = none
      ↔ (qualifying_first_stops sessions).length < 4)
    ∧ ((compute_first_stop_stats sessions notes).1 = none
      → (compute_first_stop_stats sessions notes).2.length = notes.length + 1)
    ∧ (∀ r, (compute_first_stop_stats sessions notes).1 = some r →
        (compute_first_stop_stats sessions notes).2 = notes
        ∧ r.n = (qualifying_first_stops sessions).length
        ∧ r.median = pyRound (np_percentile
            ((qualifying_first_stops sessions).map (fun z => (z : ℚ))) 50) 1
        ∧ r.p25 = pyRound (np_percentile
            ((qualifying_first_stops sessions).map (fun z => (z : ℚ))) 25) 1
        ∧ r.p75 = pyRound (np_percentile
            ((qualifying_first_stops sessions).map (fun z => (z : ℚ))) 75) 1
        ∧ r.iqr = pyRound
            (np_percentile ((qualifying_first_stops sessions).map (fun z => (z : ℚ))) 75
              - np_percentile ((qualifying_first_stops sessions).map (fun z => (z : ℚ))) 25)
            1) := by
  have hq := first_stop_laps_eq_qualifying sessions
  unfold compute_first_stop_stats
  rw [hq]
  by_cases hlt : (qualifying_first_stops sessions).length < 4
  · rw [if_pos (by simpa [MIN_DRIVERS_FOR_IQR] using hlt)]
    refine ⟨by simpa using hlt, by simp, ?_⟩
    intro r hr
    exact absurd hr (by simp)
  · rw [if_neg (by simpa [MIN_DRIVERS_FOR_IQR] using hlt)]
    refine ⟨by simpa using hlt, by simp, ?_⟩
    intro r hr
    simp only [Option.some_inj] at hr
    subst hr
    exact ⟨rfl, rfl, rfl, rfl, rfl, rfl⟩

set_option maxRecDepth 8000 in
/-- Witness for C9: the sufficient-data branch at four concrete first stops
(10, 12, 14, 20), and the insufficient branch on an empty input. -/
theorem first_stop_stats_none_iff_witness :
    ((compute_first_stop_stats ex_first_stop_sessions []).2 = ([] : List String)
      ∧ ex_first_stop_record.n = (qualifying_first_stops ex_first_stop_sessions).length
      ∧ ex_first_stop_record.median = pyRound (np_percentile
          ((qualifying_first_stops ex_first_stop_sessions).map (fun z => (z : ℚ))) 50) 1
      ∧ ex_first_stop_record.p25 = pyRound (np_percentile
          ((qualifying_first_stops ex_first_stop_sessions).map (fun z => (z : ℚ))) 25) 1
      ∧ ex_first_stop_record.p75 = pyRound (np_percentile
          ((qualifying_first_stops ex_first_stop_sessions).map (fun z => (z : ℚ))) 75) 1
      ∧ ex_first_stop_record.iqr = pyRound
          (np_percentile ((qualifying_first_stops ex_first_stop_sessions).map
              (fun z => (z : ℚ))) 75
            - np_percentile ((qualifying_first_stops ex_first_stop_sessions).map
              (fun z => (z : ℚ))) 25) 1)
    ∧ (compute_first_stop_stats [] []).1 = none := by
  have hpts : first_stop_laps ex_first_stop_sessions = [10, 12, 14, 20] := by
    norm_num [first_stop_laps, race_first_stops, ex_first_stop_sessions]
  have hp25 : np_percentile [10, 12, 14, 20] 25 = 11.5 := by
    unfold np_percentile
    norm_num [List.insertionSort, List.orderedInsert, List.getD]
  have hp50 : np_percentile [10, 12, 14, 20] 50 = 13 := by
    unfold np_percentile
    norm_num [List.insertionSort, List.orderedInsert, List.getD]
  have hp75 : np_percentile [10, 12, 14, 20] 75 = 15.5 := by
    unfold np_percentile
    norm_num [List.insertionSort, List.orderedInsert, List.getD,
      show Int.toNat 2 = 2 from rfl]
  have hr13 : pyRound (13 : ℚ) 1 = 13 := by
    rw [show (13 : ℚ) = ((130 : ℤ) : ℚ) / 10 ^ 1 by norm_num]
    exact pyRound_int_div 130 1
  have hr115 : pyRound (11.5 : ℚ) 1 = 11.5 := by
    rw [show (11.5 : ℚ) = ((115 : ℤ) : ℚ) / 10 ^ 1 by norm_num]
    exact pyRound_int_div 115 1
  have hr155 : pyRound (15.5 : ℚ) 1 = 15.5 := by
    rw [show (15.5 : ℚ) = ((155 : ℤ) : ℚ) / 10 ^ 1 by norm_num]
    exact pyRound_int_div 155 1
  have hr4 : pyRound ((15.5 : ℚ) - 11.5) 1 = 4 := by
    rw [show (15.5 : ℚ) - 11.5 = ((40 : ℤ) : ℚ) / 10 ^ 1 by norm_num]
    rw [pyRound_int_div]
    norm_num
  have hres : (compute_first_stop_stats ex_first_stop_sessions []).1
      = some ex_first_stop_record := by
    unfold compute_first_stop_stats
    rw [hpts]
    rw [if_neg (by norm_num [MIN_DRIVERS_FOR_IQR])]
    dsimp only
    rw [show ([10, 12, 14, 20] : List ℤ).map (fun z => (z : ℚ))
      = [10, 12, 14, 20] by norm_num]
    rw [hp25, hp50, hp75, hr13, hr115, hr155, hr4]
    rfl
  exact ⟨(first_stop_stats_none_iff ex_first_stop_sessions []).2.2
      ex_first_stop_record hres,
    (first_stop_stats_none_iff [] []).1.mpr (by simp [qualifying_first_stops])⟩

/-! ### Sequence-match scoring -/

/-- C8: scanning the ranked historical sequences, the first entry that matches
wins and at most one bonus is applied: if no earlier entry matches (exactly or
as a multiset) and the entry `si` matches the candidate's roles exactly
(ordered, case-insensitive, equal length), the pre-master-weight adjustment is
`−SEQUENCE_MATCH_BONUS_S · (frequency_pct/100)`; in the spec's scenario —
candidate `[MEDIUM, HARD]` against top sequence `[MEDIUM, HARD]` at 75% —
that is exactly `−1.125` seconds. -/
theorem score_sequence_match_exact (roles : List String) (pre : List SeqInfo)
    (si : SeqInfo) (rest : List SeqInfo)
    (hpre : ∀ sj ∈ pre, sequences_match roles sj.sequence = false
      ∧ sequences_partial_match roles sj.sequence = false)
    (hmatch : sequences_match roles si.sequence = true) :
    score_sequence_match roles (pre ++ si :: rest) none
        = -SEQUENCE_MATCH_BONUS_S * (si.frequency_pct / 100)
    ∧ score_sequence_match ["MEDIUM", "HARD"]
        [⟨1, ["MEDIUM", "HARD"], 75, 3⟩] none = -1.125 := by
  constructor
  · unfold score_sequence_match
    induction pre with
    | nil =>
      rw [List.nil_append]
      unfold seq_match_loop
      rw [hmatch]
      simp
    | cons sj pre' ih =>
      obtain ⟨hm, hp⟩ := hpre sj (List.mem_cons_self sj pre')
      rw [List.cons_append]
      unfold seq_match_loop
      rw [hm, hp]
      simp only [Bool.false_eq_true, if_false]
      exact ih (fun x hx => hpre x (List.mem_cons_of_mem sj hx))
  · unfold score_sequence_match seq_match_loop
    rw [show sequences_match ["MEDIUM", "HARD"] ["MEDIUM", "HARD"] = true
      by simp [sequences_match]]
    norm_num [SEQUENCE_MATCH_BONUS_S]

/-- Witness for C8 at the spec's scenario: one historical sequence, an exact
match, frequency 75%. -/
theorem score_sequence_match_exact_witness :
    score_sequence_match ["MEDIUM", "HARD"]
        ([] ++ (⟨1, ["MEDIUM", "HARD"], 75, 3⟩ : SeqInfo) :: [])
        none
      = -SEQUENCE_MATCH_BONUS_S * ((75 : ℚ) / 100) :=
  (score_sequence_match_exact ["MEDIUM", "HARD"] []
    ⟨1, ["MEDIUM", "HARD"], 75, 3⟩ [] (by simp) (by simp [sequences_match])).1

/-! ### Historical alignment scorer bounds -/

theorem pyRound3_bounds {x : ℚ} (h1 : -2 ≤ x) (h2 : x ≤ 2) :
    -2 ≤ pyRound x 3 ∧ pyRound x 3 ≤ 2 := by
  have e2 : pyRound (2 : ℚ) 3 = 2 := by
    rw [show (2 : ℚ) = ((2000 : ℤ) : ℚ) / 10 ^ 3 by norm_num, pyRound_int_div]
  have en2 : pyRound (-2 : ℚ) 3 = -2 := by
    rw [show (-2 : ℚ) = ((-2000 : ℤ) : ℚ) / 10 ^ 3 by norm_num, pyRound_int_div]
  exact ⟨en2 ▸ pyRound_mono 3 h1, e2 ▸ pyRound_mono 3 h2⟩

theorem score_first_stop_bounds (lap : ℤ) (fs : FirstStopStats) :
    0 ≤ score_first_stop lap fs ∧ score_first_stop lap fs ≤ 2 := by
  unfold score_first_stop
  split
  · norm_num
  · constructor
    · apply le_min
      · apply mul_nonneg
        · exact le_trans (le_max_right _ _) (le_max_right _ _)
        · norm_num [FIRST_STOP_OUTSIDE_IQR_PENALTY_PER_LAP]
      · norm_num [FIRST_STOP_MAX_PENALTY_S]
    · calc min _ FIRST_STOP_MAX_PENALTY_S ≤ FIRST_STOP_MAX_PENALTY_S :=
          min_le_right _ _
        _ = 2 := by norm_num [FIRST_STOP_MAX_PENALTY_S]

theorem seq_match_loop_bounds (roles : List String) (l : List SeqInfo)
    (h : ∀ si ∈ l, 0 ≤ si.frequency_pct ∧ si.frequency_pct ≤ 100) :
    -(3/2) ≤ seq_match_loop roles l ∧ seq_match_loop roles l ≤ 0 := by
  induction l with
  | nil =>
    unfold seq_match_loop
    norm_num
  | cons si rest ih =>
    obtain ⟨hf0, hf100⟩ := h si (List.mem_cons_self si rest)
    have ihh := ih (fun x hx => h x (List.mem_cons_of_mem si hx))
    unfold seq_match_loop
    split
    · unfold SEQUENCE_MATCH_BONUS_S
      constructor <;> nlinarith
    · split
      · unfold SEQUENCE_MATCH_BONUS_S SEQUENCE_PARTIAL_MATCH_FACTOR
        constructor <;> nlinarith
      · exact ihh

theorem score_stop_count_bounds (stops : ℤ) (sd : StopCountDistribution)
    (h1 : 0 ≤ sd.one_stop_pct) (h2 : sd.one_stop_pct ≤ 100)
    (h3 : 0 ≤ sd.two_stop_pct) (h4 : sd.two_stop_pct ≤ 100) :
    -(1/2) ≤ score_stop_count stops sd ∧ score_stop_count stops sd ≤ 0 := by
  unfold score_stop_count STOP_COUNT_ALIGNMENT_BONUS_S
  dsimp only
  constructor <;> split <;> split <;> linarith

/-- C10: against a well-formed profile (all frequency and stop-count
percentages in `[0, 100]`) and with the master weight at its hardcoded value
1.0, the first-stop penalty lies in `[0, 2]`, the sequence bonus in
`[−1.5, 0]`, the stop-count bonus in `[−0.5, 0]`, and every recorded
`historical_adjustment_s` lies in `[−2, +2]`. -/
theorem historical_adjustment_bounded (strategies : List StrategyResult)
    (profile : Profile) (compound_to_role : Option (String → String))
    (hseq : ∀ si ∈ profile.common_strategy_sequences,
      0 ≤ si.frequency_pct ∧ si.frequency_pct ≤ 100)
    (hsd : ∀ sd, profile.stop_count_distribution = some sd →
      0 ≤ sd.one_stop_pct ∧ sd.one_stop_pct ≤ 100
        ∧ 0 ≤ sd.two_stop_pct ∧ sd.two_stop_pct ≤ 100) :
    (∀ lap fs, 0 ≤ score_first_stop lap fs ∧ score_first_stop lap fs ≤ 2)
    ∧ (∀ roles, -(3/2) ≤ score_sequence_match roles
          profile.common_strategy_sequences compound_to_role
        ∧ score_sequence_match roles profile.common_strategy_sequences
            compound_to_role ≤ 0)
    ∧ (∀ stops sd, profile.stop_count_distribution = some sd →
        -(1/2) ≤ score_stop_count stops sd ∧ score_stop_count stops sd ≤ 0)
    ∧ ∀ s ∈ apply_historical_alignment strategies profile compound_to_role,
        ∀ a, s.historical_adjustment_s = some a → -2 ≤ a ∧ a ≤ 2 := by
  have hseqb : ∀ roles : List String,
      -(3/2) ≤ score_sequence_match roles profile.common_strategy_sequences
          compound_to_role
      ∧ score_sequence_match roles profile.common_strategy_sequences
          compound_to_role ≤ 0 := by
    intro roles
    cases compound_to_role with
    | none => exact seq_match_loop_bounds roles _ hseq
    | some m => exact seq_match_loop_bounds (roles.map m) _ hseq
  refine ⟨score_first_stop_bounds, hseqb, ?_, ?_⟩
  · intro stops sd hsd'
    obtain ⟨b1, b2, b3, b4⟩ := hsd sd hsd'
    exact score_stop_count_bounds stops sd b1 b2 b3 b4
  · intro s hs a ha
    unfold apply_historical_alignment at hs
    rw [if_neg (by norm_num [HISTORICAL_WEIGHT_MASTER])] at hs
    obtain ⟨strat, _, rfl⟩ := List.mem_map.mp hs
    dsimp only at ha
    obtain rfl := Option.some_inj.mp ha
    have hb1 : 0 ≤ (match profile.first_stop_lap with
        | some fs =>
          if (1 : ℤ) ≤ strat.stops ∧ strat.pit_stop_laps ≠ [] then
            score_first_stop (strat.pit_stop_laps.headD 0) fs
          else 0
        | none => (0 : ℚ))
        ∧ (match profile.first_stop_lap with
        | some fs =>
          if (1 : ℤ) ≤ strat.stops ∧ strat.pit_stop_laps ≠ [] then
            score_first_stop (strat.pit_stop_laps.headD 0) fs
          else 0
        | none => (0 : ℚ)) ≤ 2 := by
      cases profile.first_stop_lap with
      | none => norm_num
      | some fs =>
        dsimp only
        split
        · exact score_first_stop_bounds _ fs
        · norm_num
    have hb2 : -(3/2) ≤ (if profile.common_strategy_sequences.isEmpty then (0 : ℚ)
          else score_sequence_match (strat.stints.map (fun s => s.compound))
            profile.common_strategy_sequences compound_to_role)
        ∧ (if profile.common_strategy_sequences.isEmpty then (0 : ℚ)
          else score_sequence_match (strat.stints.map (fun s => s.compound))
            profile.common_strategy_sequences compound_to_role) ≤ 0 := by
      split
      · norm_num
      · exact hseqb _
    have hb3 : -(1/2) ≤ (match profile.stop_count_distribution with
          | some sd => score_stop_count strat.stops sd
          | none => (0 : ℚ))
        ∧ (match profile.stop_count_distribution with
          | some sd => score_stop_count strat.stops sd
          | none => (0 : ℚ)) ≤ 0 := by
      cases hsc : profile.stop_count_distribution with
      | none => norm_num
      | some sd =>
        dsimp only
        obtain ⟨b1, b2, b3, b4⟩ := hsd sd hsc
        exact score_stop_count_bounds strat.stops sd b1 b2 b3 b4
    rw [show ∀ x : ℚ, x * HISTORICAL_WEIGHT_MASTER = x from fun x => by
      norm_num [HISTORICAL_WEIGHT_MASTER]]
    exact pyRound3_bounds (by linarith [hb1.1, hb2.1, hb3.1])
      (by linarith [hb1.2, hb2.2, hb3.2])

/-- Witness for C10 at a concrete well-formed profile. -/
theorem historical_adjustment_bounded_witness :
    (∀ lap fs, 0 ≤ score_first_stop lap fs ∧ score_first_stop lap fs ≤ 2)
    ∧ (∀ roles, -(3/2) ≤ score_sequence_match roles
          ex_profile.common_strategy_sequences none
        ∧ score_sequence_match roles ex_profile.common_strategy_sequences
            none ≤ 0)
    ∧ (∀ stops sd, ex_profile.stop_count_distribution = some sd →
        -(1/2) ≤ score_stop_count stops sd ∧ score_stop_count stops sd ≤ 0)
    ∧ ∀ s ∈ apply_historical_alignment [rounding_gap_strategy] ex_profile none,
        ∀ a, s.historical_adjustment_s = some a → -2 ≤ a ∧ a ≤ 2 :=
  historical_adjustment_bounded [rounding_gap_strategy] ex_profile none
    (by
      intro si hsi
      simp only [ex_profile, List.mem_singleton] at hsi
      subst hsi
      norm_num)
    (by
      intro sd hsd
      simp only [ex_profile, Option.some_inj] at hsd
      subst hsd
      norm_num)

/-! ### Temperature adjuster -/

theorem code_num_bounds (code : String) :
    0 ≤ code_num code ∧ code_num code ≤ 9 := by
  unfold code_num
  cases hl : code.toList with
  | nil => norm_num
  | cons c t =>
    cases t with
    | nil => norm_num
    | cons d rest =>
      dsimp only
      split
      · rename_i hcond
        obtain ⟨-, hall⟩ := hcond
        have hd : d.isDigit = true := by
          have := List.all_eq_true.mp hall d (List.mem_cons_self d rest)
          simpa using this
        have hbounds : 48 ≤ d.toNat ∧ d.toNat ≤ 57 := by
          simp only [Char.isDigit, Bool.and_eq_true, decide_eq_true_eq,
            ge_iff_le] at hd
          obtain ⟨h1, h2⟩ := hd
          rw [UInt32.le_def, BitVec.le_def] at h1 h2
          exact ⟨by simpa using h1, by simpa using h2⟩
        omega
      · norm_num

theorem sensitivity_pos (code : String) : 0 < sensitivity code := by
  obtain ⟨h0, h9⟩ := code_num_bounds code
  have h0q : (0 : ℚ) ≤ (code_num code : ℚ) := by exact_mod_cast h0
  unfold sensitivity
  norm_num
  linarith

theorem temp_multiplier_at_25 (code : String) :
    temp_multiplier 25 code = ((sensitivity code : ℚ) : ℝ) := by
  unfold temp_multiplier eff_mult base_mult
  rw [show (25 : ℝ) / 25 = 1 by norm_num, Real.one_rpow, one_mul]
  have h : ((sensitivity code : ℚ) : ℝ)
      = ((850 + 50 * code_num code : ℤ) : ℝ) / 10 ^ 3 := by
    unfold sensitivity
    push_cast
    ring
  rw [h, pyRound_int_div]

theorem eff_mult_strict_mono (code : String) {t1 t2 : ℝ}
    (h0 : 0 < t1) (h12 : t1 < t2) :
    eff_mult t1 code < eff_mult t2 code := by
  unfold eff_mult base_mult
  have hs : (0 : ℝ) < ((sensitivity code : ℚ) : ℝ) := by
    exact_mod_cast sensitivity_pos code
  apply mul_lt_mul_of_pos_right _ hs
  apply Real.rpow_lt_rpow (by positivity)
  · linarith
  · norm_num

/-- C1 (amended): the recorded `temp_multiplier` at `track_temp_c = 25` equals
the compound's heat sensitivity `1 + 0.05·(code_num − 3)` — so it is exactly
1.0 only for `code_num = 3` (e.g. `"C3"`, or any code without a `C`-digit
form), not for every compound — and for a fixed compound the effective
multiplier is strictly increasing in positive track temperature, the recorded
(3-decimal-rounded) multiplier monotonically non-decreasing. -/
theorem temp_multiplier_at_25_and_monotone :
    (∀ code, temp_multiplier 25 code = ((sensitivity code : ℚ) : ℝ))
    ∧ temp_multiplier 25 "C3" = 1
    ∧ (∀ (code : String) (t1 t2 : ℝ), 0 < t1 → t1 < t2 →
        eff_mult t1 code < eff_mult t2 code)
    ∧ (∀ (code : String) (t1 t2 : ℝ), 0 < t1 → t1 ≤ t2 →
        temp_multiplier t1 code ≤ temp_multiplier t2 code) := by
  refine ⟨temp_multiplier_at_25, ?_, fun code t1 t2 h0 h12 =>
    eff_mult_strict_mono code h0 h12, ?_⟩
  · rw [temp_multiplier_at_25]
    norm_num [sensitivity, show code_num "C3" = 3 by decide]
  · intro code t1 t2 h0 h12
    unfold temp_multiplier
    apply pyRound_mono
    rcases eq_or_lt_of_le h12 with rfl | hlt
    · exact le_refl _
    · exact le_of_lt (eff_mult_strict_mono code h0 hlt)

/-- Witness for C1's amended statement at `"C3"` and temperatures 25 < 30. -/
theorem temp_multiplier_at_25_and_monotone_witness :
    temp_multiplier 25 "C5" = ((sensitivity "C5" : ℚ) : ℝ)
    ∧ eff_mult 25 "C3" < eff_mult 30 "C3"
    ∧ temp_multiplier 25 "C3" ≤ temp_multiplier 30 "C3" :=
  ⟨temp_multiplier_at_25_and_monotone.1 "C5",
   temp_multiplier_at_25_and_monotone.2.2.1 "C3" 25 30 (by norm_num) (by norm_num),
   temp_multiplier_at_25_and_monotone.2.2.2 "C3" 25 30 (by norm_num) (by norm_num)⟩

/-- Counterexample to C1 as stated: at 25°C the compound `"C1"` records
`temp_multiplier = 0.9`, not `1.0` — the per-code heat sensitivity
`1 + 0.05·(code_num − 3)` multiplies the base multiplier before the value is
recorded. -/
theorem temp_multiplier_25_c1_ne_one :
    temp_multiplier 25 "C1" = ((9/10 : ℚ) : ℝ)
    ∧ ((9/10 : ℚ) : ℝ) ≠ 1 := by
  constructor
  · rw [temp_multiplier_at_25]
    norm_num [sensitivity, show code_num "C1" = 1 by decide]
  · push_cast
    norm_num

end PitWall
